import Mathlib

/-!
# prefork: the accept gate and the worker-pool loop

A shallow embedding of `src/prefork.c`.  C `int`, `time_t` and `suseconds_t`
values are modelled as unbounded integers (signed overflow is undefined in C,
so the model describes the executions in which it does not occur).  System
calls whose results the program cannot predict (`gettimeofday`, `select`,
`waitpid`, `fork`, signal delivery) are supplied by explicit environment
records, one per call of `wait_for_incoming` or per iteration of `main_loop`.
-/

namespace Prefork

/-! ## Clock arithmetic (`src/prefork.c`, lines 240-288) -/

/-- The two fields of `struct timeval` that the program uses. -/
structure timeval where
  tv_sec : Int
  tv_usec : Int
deriving DecidableEq, Repr

/-- The global `tv_zero = { 0, 0 }` (line 240). -/
def tv_zero : timeval := ⟨0, 0⟩

/-- Microsecond total of a timeval: `tv_sec * 1000000 + tv_usec`. -/
def tv_total (t : timeval) : Int := t.tv_sec * 1000000 + t.tv_usec

/-- First loop of `tv_normalise` (lines 246-249):
`while (t->tv_usec >= 1000000) { t->tv_usec -= 1000000; t->tv_sec += 1; }`.
The first argument bounds the number of iterations. -/
def carry_loop : Nat → timeval → timeval
  | 0, t => t
  | n + 1, t =>
    if t.tv_usec ≥ 1000000 then
      carry_loop n { tv_sec := t.tv_sec + 1, tv_usec := t.tv_usec - 1000000 }
    else t

/-- Second loop of `tv_normalise` (lines 251-254):
`while (t->tv_usec < 0) { t->tv_usec += 1000000; t->tv_sec -= 1; }`.
The first argument bounds the number of iterations. -/
def borrow_loop : Nat → timeval → timeval
  | 0, t => t
  | n + 1, t =>
    if t.tv_usec < 0 then
      borrow_loop n { tv_sec := t.tv_sec - 1, tv_usec := t.tv_usec + 1000000 }
    else t

/-- The function `tv_normalise` (lines 242-255): the carry loop followed by the
borrow loop.  Each iteration moves `tv_usec` by 1000000 towards the range
`[0, 1000000)`, so `|tv_usec|` iterations are more than either loop can use;
`carry_loop_unfold`, `borrow_loop_unfold` and `tv_normalise_exit` show that
both loops run to their exit condition within these bounds. -/
def tv_normalise (t : timeval) : timeval :=
  let t1 := carry_loop t.tv_usec.toNat t
  borrow_loop (-t1.tv_usec).toNat t1

/-- The function `tv_plus` (lines 257-265); the result is what the call leaves
in `*lhs`.  Both fields of the operands are read before the matching field of
`*lhs` is written, so the result is the same when `lhs` aliases an operand. -/
def tv_plus (t1 t2 : timeval) : timeval :=
  tv_normalise { tv_sec := t1.tv_sec + t2.tv_sec, tv_usec := t1.tv_usec + t2.tv_usec }

/-- The function `tv_minus` (lines 267-275); the result is what the call leaves
in `*lhs`. -/
def tv_minus (t1 t2 : timeval) : timeval :=
  tv_normalise { tv_sec := t1.tv_sec - t2.tv_sec, tv_usec := t1.tv_usec - t2.tv_usec }

/-- The function `tv_gt` (lines 277-288), as a boolean. -/
def tv_gt (left right : timeval) : Bool :=
  if left.tv_sec > right.tv_sec then true
  else if left.tv_sec < right.tv_sec then false
  else decide (left.tv_usec > right.tv_usec)

/-! ## The context and the accept gate (`src/prefork.c`, lines 60-79, 301-383) -/

/-- The integer and time fields of `struct prefork_ctx` (lines 60-79).  The
string fields `progname`, `kid_prognam` and `kid_args` are only handed to the
logger and to `execv`; they are left out. -/
structure prefork_ctx where
  timeout : Int
  rate_limit : Int
  sample_time : Int
  state : Int
  cur_pmt : Int
  num_kids : Int
  min_kids : Int
  max_kids : Int
  debug : Int
  fd : Int
  wakeup : timeval
  last_select_seen : timeval
deriving DecidableEq, Repr

/-- `#define STATE_IDLE 0x1` (line 66). -/
def STATE_IDLE : Int := 1

/-- `#define STATE_BACKOFF 0x2` (line 67). -/
def STATE_BACKOFF : Int := 2

/-- `#define STATE_SAMPLING 0x3` (line 68). -/
def STATE_SAMPLING : Int := 3

/-- What the outside world answers during one call of `wait_for_incoming`:
the three clock readings and the return value of the readiness `select`.
A reading or return value that the call does not reach is ignored. -/
structure gate_env where
  /-- Clock: `gettimeofday(&cur, NULL)` at line 309. -/
  cur : timeval
  /-- Return value of `select(ctx->fd + 1, &fds, NULL, NULL, &tv)` at line 353. -/
  ret : Int
  /-- Clock: `gettimeofday(&ctx->last_select_seen, NULL)` at line 361. -/
  seen : timeval
  /-- Clock: `gettimeofday(&cur, NULL)` at line 379. -/
  cur2 : timeval
deriving DecidableEq, Repr

/-- What one call of `wait_for_incoming` does: the context it leaves, the value
it returns, and the two `select` calls it may make, each with its timeout:
`slept` is the pure sleep of line 322, `selected` the readiness wait of
line 353 (`none` when the call does not reach that line). -/
structure gate_result where
  ctx : prefork_ctx
  ret : Int
  slept : Option timeval
  selected : Option timeval
deriving DecidableEq, Repr

/-- Lines 353-383 of `wait_for_incoming`: the readiness wait with timeout `tv`
and everything after it. -/
def after_select (e : gate_env) (ctx : prefork_ctx) (tv : timeval) : gate_result :=
  let ret := e.ret
  let ctx := if ret = 0 then { ctx with state := STATE_IDLE } else ctx
  if ret = -1 ∨ ret = 0 then
    { ctx := ctx, ret := 0, slept := none, selected := some tv }
  else
    let ctx := { ctx with last_select_seen := e.seen }
    let ctx :=
      if ctx.state = STATE_IDLE then
        { ctx with state := STATE_SAMPLING, cur_pmt := ctx.sample_time }
      else ctx
    let ctx := { ctx with cur_pmt := Int.tdiv ctx.cur_pmt 2 }
    if ctx.num_kids = 0 ∨ ctx.cur_pmt < 1 then
      { ctx := { ctx with state := STATE_BACKOFF }, ret := 1, slept := none,
        selected := some tv }
    else
      let tv2 : timeval :=
        { tv_sec := Int.tdiv ctx.cur_pmt 1000000, tv_usec := Int.tmod ctx.cur_pmt 1000000 }
      { ctx := { ctx with wakeup := tv_plus e.cur2 tv2 }, ret := 0, slept := none,
        selected := some tv }

/-- The function `wait_for_incoming` (lines 301-383).  C `/` and `%` truncate
towards zero: `Int.tdiv` and `Int.tmod`. -/
def wait_for_incoming (e : gate_env) (ctx : prefork_ctx) : gate_result :=
  let cur := e.cur
  if ctx.state = STATE_BACKOFF then
    let tv : timeval :=
      { tv_sec := Int.tdiv ctx.rate_limit 1000000, tv_usec := Int.tmod ctx.rate_limit 1000000 }
    { ctx := { ctx with wakeup := tv_plus tv cur, state := STATE_IDLE }, ret := 0,
      slept := none, selected := none }
  else
    let tv := tv_minus ctx.wakeup cur
    if tv_gt tv tv_zero then
      { ctx := ctx, ret := 0, slept := some tv, selected := none }
    else
      let tv : timeval := { tv_sec := 0, tv_usec := 0 }
      if ctx.state = STATE_IDLE then
        let tv : timeval := { tv with tv_sec := 60 }
        if ctx.timeout > 0 ∧ ctx.num_kids = 0 ∧ ctx.min_kids = 0 then
          let tv : timeval := { tv with tv_sec := ctx.timeout }
          let tv := tv_plus ctx.last_select_seen tv
          let tv := tv_minus tv cur
          if tv_gt tv_zero tv then
            { ctx := ctx, ret := -1, slept := none, selected := none }
          else after_select e ctx tv
        else after_select e ctx tv
      else after_select e ctx tv

/-- One call of `wait_for_incoming` as the caller makes it: `kids` is the value
of `ctx->num_kids` at the call (only `main_loop` writes that field). -/
structure gate_call where
  kids : Int
  env : gate_env
deriving DecidableEq, Repr

/-- Results of a sequence of `wait_for_incoming` calls on one context. -/
def gate_run (ctx : prefork_ctx) : List gate_call → List gate_result
  | [] => []
  | k :: ks =>
    let r := wait_for_incoming k.env { ctx with num_kids := k.kids }
    r :: gate_run r.ctx ks

/-- Context left by a sequence of `wait_for_incoming` calls. -/
def gate_final (ctx : prefork_ctx) : List gate_call → prefork_ctx
  | [] => ctx
  | k :: ks => gate_final (wait_for_incoming k.env { ctx with num_kids := k.kids }).ctx ks

/-- All clock readings of a sequence of calls, in the order they are taken,
as microsecond totals. -/
def clock_readings : List gate_call → List Int
  | [] => []
  | k :: ks =>
    tv_total k.env.cur :: tv_total k.env.seen :: tv_total k.env.cur2 :: clock_readings ks

/-- The clock never goes back over a sequence of calls.  A call that does not
reach one of its three readings ignores it, so a run in which fewer readings
are taken is covered by repeating the last reading taken. -/
def clock_nondecreasing (ks : List gate_call) : Prop :=
  (clock_readings ks).Pairwise (fun a b => a ≤ b)

instance (ks : List gate_call) : Decidable (clock_nondecreasing ks) := by
  unfold clock_nondecreasing; infer_instance

/-- Number of calls in a list of results that performed the readiness wait. -/
def polls (rs : List gate_result) : Nat :=
  rs.countP (fun r => r.selected.isSome)

/-! ## Argument processing (`src/prefork.c`, lines 157-211) -/

/-- One result of `getopt(argc, argv, "?N:dn:r:s:")` with, for the options that
take one, the value `strtoul(optarg, NULL, 0)` returns.  `bad` is `'?'`: an
unknown option, a missing argument or a literal `-?`. -/
inductive opt where
  | N (v : Nat)
  | d
  | n (v : Nat)
  | r (v : Nat)
  | s (v : Nat)
  | bad
deriving DecidableEq, Repr

/-- Conversion of an `unsigned long` to a 32-bit `int` (the assignments of
lines 176-188): reduction modulo `2^32` into `[-2^31, 2^31)`. -/
def ulong_to_int (v : Nat) : Int :=
  ((v : Int) + 2147483648) % 4294967296 - 2147483648

/-- The context after `memset(ctx, 0, sizeof(*ctx))` (line 163). -/
def ctx_zero : prefork_ctx :=
  { timeout := 0, rate_limit := 0, sample_time := 0, state := 0, cur_pmt := 0,
    num_kids := 0, min_kids := 0, max_kids := 0, debug := 0, fd := 0,
    wakeup := ⟨0, 0⟩, last_select_seen := ⟨0, 0⟩ }

/-- The context after the defaults of lines 165-171. -/
def ctx_defaults : prefork_ctx :=
  { ctx_zero with
    rate_limit := 32 * 1024
    sample_time := 16 * 1024
    num_kids := 0
    min_kids := 0
    max_kids := 10
    fd := -1 }

/-- The `getopt` loop of lines 173-194.  `none`: `prefork_usage` was called,
which ends the process through `fatal` with `exit(1)`. -/
def getopt_loop (ctx : prefork_ctx) : List opt → Option prefork_ctx
  | [] => some ctx
  | opt.N v :: os => getopt_loop { ctx with max_kids := ulong_to_int v } os
  | opt.d :: os => getopt_loop { ctx with debug := 1 } os
  | opt.n v :: os => getopt_loop { ctx with min_kids := ulong_to_int v } os
  | opt.r v :: os => getopt_loop { ctx with rate_limit := ulong_to_int v } os
  | opt.s v :: os => getopt_loop { ctx with sample_time := ulong_to_int v } os
  | opt.bad :: _ => none

/-- The function `prefork_process_args` (lines 157-211): the context it fills
in and its return value; `none` when it does not return (`exit(1)` from
`prefork_usage`). -/
def prefork_process_args (opts : List opt) : Option (prefork_ctx × Int) :=
  match getopt_loop ctx_defaults opts with
  | none => none
  | some ctx => if ctx.max_kids < ctx.min_kids then some (ctx, 0) else some (ctx, 1)

/-! ## The main loop (`src/prefork.c`, lines 122-141, 389-467, 536-557) -/

/-- `SIGHUP`. -/
def SIGHUP : Int := 1

/-- `SIGTERM`. -/
def SIGTERM : Int := 15

/-- `SIGCHLD` (Linux numbering). -/
def SIGCHLD : Int := 17

/-- The handler `sighndler` (lines 122-141): the value it leaves in `die_now`. -/
def sighndler (sig : Int) (die_now : Int) : Int :=
  if sig = SIGTERM ∨ sig = SIGHUP then 1 else die_now

/-- Delivery of at most one handled signal at a blocking point. -/
def deliver (sig : Option Int) (die_now : Int) : Int :=
  match sig with
  | none => die_now
  | some s => sighndler s die_now

/-- Observable steps of the supervisor process. -/
inductive event where
  /-- `prefork_setup` was entered. -/
  | setup
  /-- `swizzle_fds` was called. -/
  | swizzle
  /-- `killpg(0, SIGHUP)` (line 431). -/
  | killpg
  /-- The blocking `waitpid(-1, &status, 0)` (line 436) and its return value. -/
  | reap_block (ret : Int)
  /-- A signal was handled by `sighndler`. -/
  | signal (sig : Int)
  /-- The loop `while (waitpid(-1, &status, WNOHANG) > 0)` reaped `n` children. -/
  | reap_nohang (n : Nat)
  /-- `wait_for_incoming` was called with `num_kids = kids` and returned `ret`. -/
  | poll (kids : Int) (ret : Int)
  /-- `make_kid` was called with `num_kids = kids`; `fork` returned `pid`. -/
  | make_kid (kids : Int) (pid : Int)
deriving DecidableEq, Repr

/-- What the outside world answers during one iteration of `main_loop`.  An
answer the iteration does not reach is ignored. -/
structure iter_env where
  /-- Signal handled while the blocking `waitpid` of line 436 waits. -/
  sig_reap : Option Int
  /-- Return value of the blocking `waitpid` of line 436. -/
  reap : Int
  /-- Number of calls of `waitpid(-1, &status, WNOHANG)` at line 448 that return
  a positive value before one does not. -/
  zombies : Nat
  /-- Answers to `wait_for_incoming`. -/
  gate : gate_env
  /-- Signal handled while `wait_for_incoming` waits in `select`. -/
  sig_poll : Option Int
  /-- Return value of `fork` (line 394). -/
  pid : Int
deriving DecidableEq, Repr

/-- State of the supervisor inside `main_loop`: the context and the global
`die_now`. -/
structure loop_state where
  ctx : prefork_ctx
  die_now : Int
deriving DecidableEq, Repr

/-- How `main_loop` or the process ends. -/
inductive loop_exit where
  /-- The `break` of line 432. -/
  | broke
  /-- The `return` of line 460. -/
  | returned
  /-- The process is the child of `fork`: `start_kid`, then `exit(0)`. -/
  | child
deriving DecidableEq, Repr

/-- Outcome of a piece of `main_loop`: the state it leaves, the steps it
took, in order, and how the loop ended (`none`: it goes on). -/
structure loop_result where
  state : loop_state
  events : List event
  exit : Option loop_exit
deriving DecidableEq, Repr

/-- The function `make_kid` (lines 389-407) in a process where `fork` returned
`pid`: `none` in the child, which runs `start_kid` and never returns, else the
number of kids created. -/
def make_kid (pid : Int) : Option Int :=
  if pid = 0 then none
  else if pid = -1 then some 0
  else some 1

/-- The statement `ctx->num_kids += make_kid(ctx);` (lines 444 and 463). -/
def spawn (e : iter_env) (s : loop_state) : loop_result :=
  match make_kid e.pid with
  | none =>
    { state := s, events := [event.make_kid s.ctx.num_kids e.pid],
      exit := some loop_exit.child }
  | some made =>
    { state := { s with ctx := { s.ctx with num_kids := s.ctx.num_kids + made } },
      events := [event.make_kid s.ctx.num_kids e.pid], exit := none }

/-- Steps logged for a signal handled at a blocking point. -/
def signal_events (sig : Option Int) : List event :=
  match sig with
  | none => []
  | some n => [event.signal n]

/-- Lines 435-441 of `main_loop`: the blocking reap when the pool is full. -/
def blocking_reap (e : iter_env) (s : loop_state) : loop_state × List event :=
  if s.ctx.num_kids ≥ s.ctx.max_kids then
    let die := deliver e.sig_reap s.die_now
    let ev := event.reap_block e.reap :: signal_events e.sig_reap
    if e.reap ≠ -1 then
      ({ ctx := { s.ctx with num_kids := s.ctx.num_kids - 1 }, die_now := die }, ev)
    else
      ({ ctx := s.ctx, die_now := die }, ev)
  else (s, [])

/-- The loop `while (waitpid(-1, &status, WNOHANG) > 0) ctx->num_kids--;`
(lines 448-449) when `n` calls return a positive value: the final `num_kids`. -/
def reap_nohang : Nat → Int → Int
  | 0, kids => kids
  | n + 1, kids => reap_nohang n (kids - 1)

/-- One iteration of the `for (;;)` loop of `main_loop` (lines 430-465). -/
def loop_body (e : iter_env) (s : loop_state) : loop_result :=
  if s.die_now ≠ 0 then
    { state := s, events := [event.killpg], exit := some loop_exit.broke }
  else
    let s1 := (blocking_reap e s).1
    let ev1 := (blocking_reap e s).2
    if s1.ctx.num_kids < s1.ctx.min_kids then
      let r := spawn e s1
      { r with events := ev1 ++ r.events }
    else
      let kids := reap_nohang e.zombies s1.ctx.num_kids
      let g := wait_for_incoming e.gate { s1.ctx with num_kids := kids }
      let s2 : loop_state := { ctx := g.ctx, die_now := deliver e.sig_poll s1.die_now }
      let ev2 := ev1 ++ [event.reap_nohang e.zombies, event.poll kids g.ret] ++
        signal_events e.sig_poll
      if g.ret = 0 then { state := s2, events := ev2, exit := none }
      else if g.ret = -1 then { state := s2, events := ev2, exit := some loop_exit.returned }
      else
        let r := spawn e s2
        { r with events := ev2 ++ r.events }

/-- The function `main_loop` (lines 423-467) run against the answers `es`, one
record per iteration.  The `exit` of the result is `none` when the loop is
still running after the last record. -/
def main_loop : List iter_env → loop_state → loop_result
  | [], s => { state := s, events := [], exit := none }
  | e :: es, s =>
    let r := loop_body e s
    match r.exit with
    | some _ => r
    | none =>
      let r2 := main_loop es r.state
      { r2 with events := r.events ++ r2.events }

/-- What the outside world answers to `main`. -/
structure main_env where
  /-- `prefork_setup` ends in `fatal` (a `sigaction` or `setpgid` failure). -/
  setup_fatal : Bool
  /-- Return value of `swizzle_fds`. -/
  swizzle : Int
  /-- Answers to the iterations of `main_loop`. -/
  iters : List iter_env
deriving DecidableEq, Repr

/-- Outcome of `main`: the exit status (`none` while `main_loop` is still
running), the steps taken, and the state of the loop if it was entered. -/
structure main_result where
  status : Option Int
  log : List event
  final : Option loop_state
deriving DecidableEq, Repr

/-- The function `main` (lines 536-557); `EXIT_FAILURE` is 1. -/
def main (opts : List opt) (env : main_env) : main_result :=
  match prefork_process_args opts with
  | none => { status := some 1, log := [], final := none }
  | some (ctx, ok) =>
    if ok = 0 then { status := some 1, log := [], final := none }
    else if env.setup_fatal then { status := some 1, log := [event.setup], final := none }
    else
      let ctx := { ctx with fd := env.swizzle }
      if ctx.fd = -1 then
        { status := some 1, log := [event.setup, event.swizzle], final := none }
      else
        let r := main_loop env.iters { ctx := ctx, die_now := 0 }
        { status := (match r.exit with
                     | none => none
                     | some _ => some 0),
          log := [event.setup, event.swizzle] ++ r.events,
          final := some r.state }

/-- The value of `num_kids` a step records: the one `make_kid` or
`wait_for_incoming` is called with. -/
def event.kids : event → Option Int
  | event.make_kid k _ => some k
  | event.poll k _ => some k
  | _ => none

/-- Whether an event is a call of `make_kid`. -/
def event.is_make_kid : event → Bool
  | event.make_kid _ _ => true
  | _ => false

/-- Invariant of the sampling phase after `j` readiness polls. -/
def decay_inv (S : Int) (j : Nat) (c : prefork_ctx) : Prop :=
  c.sample_time = S ∧
  ((j = 0 ∧ c.state = STATE_IDLE) ∨
   (1 ≤ j ∧ c.state = STATE_SAMPLING ∧ c.cur_pmt = S / 2 ^ j))

/-- Invariant of the rate limit: the gate is in BACKOFF, or its wakeup is at
least `b` microseconds on the clock. -/
def backoff_inv (b : Int) (c : prefork_ctx) : Prop :=
  c.state = STATE_BACKOFF ∨ b ≤ tv_total c.wakeup

/-- Every `poll` step of a log comes right after a non-blocking reap of `n`
kids, with `num_kids + n` at least `min`. -/
def floor_ok (min : Int) (evs : List event) : Prop :=
  ∀ pre post k r, evs = pre ++ event.poll k r :: post →
    ∃ pre1 n, pre = pre1 ++ [event.reap_nohang n] ∧ min ≤ k + (n : Int)

/-! ## Concrete inputs used to exercise the model -/


/-- Answers of a call made at second `sec` of the clock (all three readings
equal) whose readiness `select` returns `ret`. -/
def env_at (sec : Int) (ret : Int) : gate_env :=
  { cur := ⟨sec, 0⟩, ret := ret, seen := ⟨sec, 0⟩, cur2 := ⟨sec, 0⟩ }

/-- A gate in state SAMPLING with one kid and `cur_pmt = 4096`. -/
def sampling_ctx : prefork_ctx :=
  { ctx_defaults with state := STATE_SAMPLING, cur_pmt := 4096, num_kids := 1 }

/-- An idle gate with no kids, no floor and an idle timeout of `T` seconds,
whose descriptor was last seen ready at time 0. -/
def idle_ctx (T : Int) : prefork_ctx :=
  { ctx_defaults with state := STATE_IDLE, timeout := T }

/-- An idle gate with `sample_time = 4`. -/
def decay_ctx : prefork_ctx :=
  { ctx_defaults with state := STATE_IDLE, sample_time := 4 }

/-- A call at second `sec` with `kids` live kids and the descriptor ready. -/
def ready_call (kids : Int) (sec : Int) : gate_call :=
  { kids := kids, env := env_at sec 1 }

/-- An idle gate with the default `rate_limit` of 32768 microseconds. -/
def rate_ctx : prefork_ctx :=
  { ctx_defaults with state := STATE_IDLE }

/-- Three calls with no kid alive and the descriptor ready, at seconds 1, 2
and 3: the first and the third return 1, the second is the backoff call. -/
def rate_calls : List gate_call :=
  [ready_call 0 1, ready_call 0 2, ready_call 0 3]

/-- Answers of one iteration of `main_loop` with no signal during the poll:
signal and return value of the blocking reap, number of kids the non-blocking
reap collects, second of the clock, return value of the readiness `select`,
and return value of `fork`. -/
def iter_at (sig : Option Int) (reap : Int) (zombies : Nat) (sec : Int) (ret : Int)
    (pid : Int) : iter_env :=
  { sig_reap := sig, reap := reap, zombies := zombies, gate := env_at sec ret,
    sig_poll := none, pid := pid }

/-- Environment of `main` in which setup succeeds, the descriptor is moved to
fd 3 and the loop gets the answers `iters`. -/
def env_of (iters : List iter_env) : main_env :=
  { setup_fatal := false, swizzle := 3, iters := iters }

/-- A loop state with `max_kids = 2`, no kid, idle gate, no signal yet. -/
def pool_state : loop_state :=
  { ctx := { ctx_defaults with state := STATE_IDLE, max_kids := 2 }, die_now := 0 }

/-- A loop state whose pool is full (`num_kids = max_kids = 2`). -/
def full_state : loop_state :=
  { ctx := { ctx_defaults with state := STATE_IDLE, max_kids := 2, num_kids := 2 },
    die_now := 0 }

/-- A loop state with a floor of one kid and no kid alive. -/
def floor_state : loop_state :=
  { ctx := { ctx_defaults with state := STATE_IDLE, min_kids := 1, fd := 3 }, die_now := 0 }

/-! ### Lemmas on the clock arithmetic -/

theorem carry_loop_closed (n : Nat) : ∀ t : timeval, 0 ≤ t.tv_usec →
    t.tv_usec < 1000000 * ((n : Int) + 1) →
    carry_loop n t = ⟨t.tv_sec + t.tv_usec / 1000000, t.tv_usec % 1000000⟩ := by
  induction n with
  | zero =>
    intro t h0 h1
    obtain ⟨s, u⟩ := t
    simp only [carry_loop, timeval.mk.injEq]
    simp only [] at h0 h1
    constructor <;> omega
  | succ n ih =>
    intro t h0 h1
    obtain ⟨s, u⟩ := t
    simp only [] at h0 h1
    simp only [carry_loop]
    split
    · rename_i hge
      rw [ih _ (by simp only []; omega) (by simp only []; push_cast at h1; omega)]
      simp only [timeval.mk.injEq]
      constructor <;> omega
    · rename_i hlt
      simp only [timeval.mk.injEq]
      constructor <;> omega

theorem carry_loop_neg (n : Nat) (t : timeval) (h : t.tv_usec < 1000000) :
    carry_loop n t = t := by
  cases n with
  | zero => rfl
  | succ n => simp only [carry_loop]; rw [if_neg (by omega)]

theorem borrow_loop_closed (n : Nat) : ∀ t : timeval, t.tv_usec < 1000000 →
    -(1000000 * (n : Int)) ≤ t.tv_usec →
    borrow_loop n t = ⟨t.tv_sec + t.tv_usec / 1000000, t.tv_usec % 1000000⟩ := by
  induction n with
  | zero =>
    intro t h0 h1
    obtain ⟨s, u⟩ := t
    simp only [borrow_loop, timeval.mk.injEq]
    simp only [] at h0 h1
    constructor <;> omega
  | succ n ih =>
    intro t h0 h1
    obtain ⟨s, u⟩ := t
    simp only [] at h0 h1
    simp only [borrow_loop]
    split
    · rename_i hneg
      rw [ih _ (by simp only []; omega) (by simp only []; push_cast at h1; omega)]
      simp only [timeval.mk.injEq]
      constructor <;> omega
    · rename_i hge
      simp only [timeval.mk.injEq]
      constructor <;> omega

/-- Closed form of `tv_normalise`: floor division and remainder by 1000000. -/
theorem tv_normalise_eq (t : timeval) :
    tv_normalise t = ⟨t.tv_sec + t.tv_usec / 1000000, t.tv_usec % 1000000⟩ := by
  obtain ⟨s, u⟩ := t
  simp only [tv_normalise]
  by_cases hu : 0 ≤ u
  · rw [carry_loop_closed _ _ (by simpa using hu)
      (by simp only []; rw [Int.toNat_of_nonneg hu]; omega)]
    rw [borrow_loop_closed _ _ (by simp only []; omega) (by simp only []; omega)]
    simp only [timeval.mk.injEq]
    constructor <;> omega
  · rw [carry_loop_neg _ _ (by simp only []; omega)]
    rw [borrow_loop_closed _ _ (by simp only []; omega)
      (by simp only []; omega)]

/-- With the bound used in `tv_normalise`, the carry loop satisfies the
unfolding equation of the C `while` loop. -/
theorem carry_loop_unfold (t : timeval) :
    carry_loop t.tv_usec.toNat t =
      if t.tv_usec ≥ 1000000 then
        carry_loop (t.tv_usec - 1000000).toNat ⟨t.tv_sec + 1, t.tv_usec - 1000000⟩
      else t := by
  obtain ⟨s, u⟩ := t
  simp only []
  split
  · rename_i h
    rw [carry_loop_closed _ _ (by simp only []; omega) (by simp only []; omega),
      carry_loop_closed _ _ (by simp only []; omega) (by simp only []; omega)]
    simp only [timeval.mk.injEq]
    constructor <;> omega
  · rename_i h
    exact carry_loop_neg _ _ (by simp only []; omega)

/-- With the bound used in `tv_normalise`, the borrow loop satisfies the
unfolding equation of the C `while` loop. -/
theorem borrow_loop_unfold (t : timeval) (h : t.tv_usec < 1000000) :
    borrow_loop (-t.tv_usec).toNat t =
      if t.tv_usec < 0 then
        borrow_loop (-(t.tv_usec + 1000000)).toNat ⟨t.tv_sec - 1, t.tv_usec + 1000000⟩
      else t := by
  obtain ⟨s, u⟩ := t
  simp only [] at h ⊢
  split
  · rename_i hn
    rw [borrow_loop_closed _ _ (by simp only []; omega) (by simp only []; omega),
      borrow_loop_closed _ _ (by simp only []; omega) (by simp only []; omega)]
    simp only [timeval.mk.injEq]
    constructor <;> omega
  · rename_i hn
    rw [borrow_loop_closed _ _ (by simp only []; omega) (by simp only []; omega)]
    simp only [timeval.mk.injEq]
    constructor <;> omega

/-- Any iteration bounds that cover the carries (`tv_usec < 1000000 * (n + 1)`)
and the borrows (`-1000000 * m <= tv_usec`) give the result of `tv_normalise`:
the loops stop by their exit conditions, not by the bounds. -/
theorem tv_normalise_bounds (t : timeval) (n m : Nat)
    (hn : t.tv_usec < 1000000 * ((n : Int) + 1)) (hm : -(1000000 * (m : Int)) ≤ t.tv_usec) :
    borrow_loop m (carry_loop n t) = tv_normalise t := by
  rw [tv_normalise_eq]
  obtain ⟨s, u⟩ := t
  simp only [] at hn hm ⊢
  by_cases hu : 0 ≤ u
  · rw [carry_loop_closed n ⟨s, u⟩ (by simpa using hu) (by simp only []; omega)]
    rw [borrow_loop_closed _ _ (by simp only []; omega) (by simp only []; omega)]
    simp only [timeval.mk.injEq]
    constructor <;> omega
  · rw [carry_loop_neg n ⟨s, u⟩ (by simp only []; omega)]
    rw [borrow_loop_closed _ _ (by simp only []; omega) (by simp only []; omega)]

/-- Both loops of `tv_normalise` have reached their exit condition. -/
theorem tv_normalise_exit (t : timeval) :
    ¬ (tv_normalise t).tv_usec ≥ 1000000 ∧ ¬ (tv_normalise t).tv_usec < 0 := by
  rw [tv_normalise_eq]
  simp only []
  constructor <;> omega

theorem tv_normalise_total (t : timeval) : tv_total (tv_normalise t) = tv_total t := by
  rw [tv_normalise_eq]
  simp only [tv_total]
  omega

theorem tv_plus_total (a b : timeval) :
    tv_total (tv_plus a b) = tv_total a + tv_total b := by
  rw [tv_plus, tv_normalise_total]
  simp only [tv_total]
  ring

theorem tv_minus_total (a b : timeval) :
    tv_total (tv_minus a b) = tv_total a - tv_total b := by
  rw [tv_minus, tv_normalise_total]
  simp only [tv_total]
  ring

theorem tv_plus_range (a b : timeval) :
    0 ≤ (tv_plus a b).tv_usec ∧ (tv_plus a b).tv_usec < 1000000 := by
  have h := tv_normalise_exit ⟨a.tv_sec + b.tv_sec, a.tv_usec + b.tv_usec⟩
  simp only [tv_plus]
  omega

theorem tv_minus_range (a b : timeval) :
    0 ≤ (tv_minus a b).tv_usec ∧ (tv_minus a b).tv_usec < 1000000 := by
  have h := tv_normalise_exit ⟨a.tv_sec - b.tv_sec, a.tv_usec - b.tv_usec⟩
  simp only [tv_minus]
  omega

/-- On a normalised left operand, `tv_gt t tv_zero` tests `tv_total t > 0`. -/
theorem tv_gt_zero_iff (t : timeval) (h0 : 0 ≤ t.tv_usec) (h1 : t.tv_usec < 1000000) :
    tv_gt t tv_zero = true ↔ 0 < tv_total t := by
  simp only [tv_gt, tv_zero, tv_total]
  split
  · simp only [true_iff]; omega
  · split
    · simp only [Bool.false_eq_true, false_iff]; omega
    · simp only [decide_eq_true_eq]; omega

/-- On a normalised right operand, `tv_gt tv_zero t` tests `tv_total t < 0`. -/
theorem tv_zero_gt_iff (t : timeval) (h0 : 0 ≤ t.tv_usec) (h1 : t.tv_usec < 1000000) :
    tv_gt tv_zero t = true ↔ tv_total t < 0 := by
  simp only [tv_gt, tv_zero, tv_total]
  split
  · simp only [true_iff]; omega
  · split
    · simp only [Bool.false_eq_true, false_iff]; omega
    · simp only [decide_eq_true_eq]; omega

/-! ### Lemmas on the accept gate -/

theorem after_select_selected (e : gate_env) (c : prefork_ctx) (tv : timeval) :
    (after_select e c tv).selected = some tv := by
  unfold after_select
  simp only []
  split_ifs <;> rfl

/-- A call that performs the readiness wait is lines 353-383 run on the
unchanged context. -/
theorem selected_after_select (e : gate_env) (c : prefork_ctx)
    (h : (wait_for_incoming e c).selected.isSome = true) :
    ∃ tv, wait_for_incoming e c = after_select e c tv := by
  unfold wait_for_incoming at h ⊢
  simp only [] at h ⊢
  split_ifs at h ⊢ <;> first | exact ⟨_, rfl⟩ | simp at h

theorem int_halve (S : Int) (j : Nat) (h : 0 ≤ S) : S / 2 ^ j / 2 = S / 2 ^ (j + 1) := by
  obtain ⟨m, rfl⟩ := Int.eq_ofNat_of_zero_le h
  norm_cast
  rw [Nat.div_div_eq_div_mul, pow_succ]

theorem int_halve_nonneg (S : Int) (j : Nat) (h : 0 ≤ S) : 0 ≤ S / 2 ^ j :=
  Int.ediv_nonneg h (by positivity)

theorem int_halve_le (S : Int) (a d : Nat) (h : 0 ≤ S) : S / 2 ^ (a + d) ≤ S / 2 ^ a := by
  induction d with
  | zero => simp
  | succ d ih =>
    rw [← Nat.add_assoc, ← int_halve S (a + d) h]
    have := int_halve_nonneg S (a + d) h
    omega

theorem after_select_config (e : gate_env) (c : prefork_ctx) (tv : timeval) :
    (after_select e c tv).ctx.timeout = c.timeout ∧
    (after_select e c tv).ctx.rate_limit = c.rate_limit ∧
    (after_select e c tv).ctx.sample_time = c.sample_time ∧
    (after_select e c tv).ctx.num_kids = c.num_kids ∧
    (after_select e c tv).ctx.min_kids = c.min_kids ∧
    (after_select e c tv).ctx.max_kids = c.max_kids := by
  by_cases h0 : e.ret = 0
  · simp [after_select, h0]
  · by_cases h1 : e.ret = -1
    · simp [after_select, h1]
    · by_cases hs : c.state = STATE_IDLE
      · by_cases hc : c.num_kids = 0 ∨ Int.tdiv c.sample_time 2 < 1
        · simp [after_select, h0, h1, hs, hc]
        · simp [after_select, h0, h1, hs, hc]
      · by_cases hc : c.num_kids = 0 ∨ Int.tdiv c.cur_pmt 2 < 1
        · simp [after_select, h0, h1, hs, hc]
        · simp [after_select, h0, h1, hs, hc]

theorem wait_config (e : gate_env) (c : prefork_ctx) :
    (wait_for_incoming e c).ctx.timeout = c.timeout ∧
    (wait_for_incoming e c).ctx.rate_limit = c.rate_limit ∧
    (wait_for_incoming e c).ctx.sample_time = c.sample_time ∧
    (wait_for_incoming e c).ctx.num_kids = c.num_kids ∧
    (wait_for_incoming e c).ctx.min_kids = c.min_kids ∧
    (wait_for_incoming e c).ctx.max_kids = c.max_kids := by
  unfold wait_for_incoming
  simp only []
  split_ifs <;> first | exact after_select_config _ _ _ | simp

/-- Lines 361-383 when `select` reports the descriptor ready. -/
theorem after_select_ready (e : gate_env) (c : prefork_ctx) (tv : timeval)
    (h0 : e.ret ≠ 0) (h1 : e.ret ≠ -1) :
    (after_select e c tv).ctx.cur_pmt
      = Int.tdiv (if c.state = STATE_IDLE then c.sample_time else c.cur_pmt) 2 ∧
    ((c.num_kids = 0 ∨ (after_select e c tv).ctx.cur_pmt < 1) →
      (after_select e c tv).ret = 1 ∧ (after_select e c tv).ctx.state = STATE_BACKOFF) ∧
    (¬ (c.num_kids = 0 ∨ (after_select e c tv).ctx.cur_pmt < 1) →
      (after_select e c tv).ret = 0 ∧
      (after_select e c tv).ctx.state
        = (if c.state = STATE_IDLE then STATE_SAMPLING else c.state)) := by
  by_cases hs : c.state = STATE_IDLE
  · by_cases hc : c.num_kids = 0 ∨ Int.tdiv c.sample_time 2 < 1
    · simp [after_select, h0, h1, hs, hc]
    · simp [after_select, h0, h1, hs, hc]
  · by_cases hc : c.num_kids = 0 ∨ Int.tdiv c.cur_pmt 2 < 1
    · simp [after_select, h0, h1, hs, hc]
    · simp [after_select, h0, h1, hs, hc]

theorem not_selected (e : gate_env) (c : prefork_ctx)
    (hb : c.state ≠ STATE_BACKOFF) (hk : c.num_kids ≠ 0)
    (h : (wait_for_incoming e c).selected.isSome = false) :
    (wait_for_incoming e c).ret = 0 ∧ (wait_for_incoming e c).ctx = c := by
  unfold wait_for_incoming at h ⊢
  simp only [] at h ⊢
  split_ifs at h ⊢ <;>
    first
    | exact ⟨rfl, rfl⟩
    | (rw [after_select_selected] at h; simp at h)
    | (exfalso; simp_all)

theorem decay_step (S : Int) (j : Nat) (e : gate_env) (c : prefork_ctx)
    (hinv : decay_inv S j c) (hS : 1 ≤ S) (hj : 1 ≤ S / 2 ^ j)
    (hk : 0 < c.num_kids) (hr : 0 < e.ret) :
    ((wait_for_incoming e c).selected.isSome = true →
      (wait_for_incoming e c).ctx.cur_pmt = S / 2 ^ (j + 1) ∧
      (wait_for_incoming e c).ctx.cur_pmt < S / 2 ^ j ∧
      (1 ≤ S / 2 ^ (j + 1) →
        (wait_for_incoming e c).ret = 0 ∧
        (wait_for_incoming e c).ctx.state = STATE_SAMPLING) ∧
      (S / 2 ^ (j + 1) < 1 →
        (wait_for_incoming e c).ret = 1 ∧
        (wait_for_incoming e c).ctx.state = STATE_BACKOFF)) ∧
    ((wait_for_incoming e c).selected.isSome = false →
      (wait_for_incoming e c).ret = 0 ∧ (wait_for_incoming e c).ctx = c) := by
  have hstate : c.state ≠ STATE_BACKOFF := by
    rcases hinv.2 with ⟨_, h⟩ | ⟨_, h, _⟩ <;> rw [h] <;> decide
  refine ⟨?_, not_selected e c hstate (by omega)⟩
  intro hsel
  obtain ⟨tv, htv⟩ := selected_after_select e c hsel
  rw [htv]
  obtain ⟨hp, hspawn, hnone⟩ := after_select_ready e c tv (by omega) (by omega)
  have hin : (if c.state = STATE_IDLE then c.sample_time else c.cur_pmt) = S / 2 ^ j := by
    rcases hinv with ⟨hst, ⟨hj0, h⟩ | ⟨_, h, hc⟩⟩
    · rw [h, if_pos rfl, hst, hj0]; simp
    · rw [h, if_neg (by decide), hc]
  have hst : (if c.state = STATE_IDLE then STATE_SAMPLING else c.state) = STATE_SAMPLING := by
    rcases hinv with ⟨_, ⟨_, h⟩ | ⟨_, h, _⟩⟩
    · rw [h, if_pos rfl]
    · rw [h, if_neg (by decide)]
  rw [hin, Int.tdiv_eq_ediv (by omega) (by decide), int_halve S j (by omega)] at hp
  rw [hst] at hnone
  rw [hp] at hspawn hnone
  have hlt : S / 2 ^ (j + 1) < S / 2 ^ j := by
    rw [← int_halve S j (by omega)]; omega
  refine ⟨hp, by rw [hp]; exact hlt, ?_, ?_⟩
  · intro h1
    exact hnone (by omega)
  · intro h1
    exact hspawn (Or.inr h1)

theorem decay_run (S n : Int) (hS : 1 ≤ S) (hn : 0 < n) :
    ∀ (ks : List gate_call) (c : prefork_ctx) (j : Nat),
    decay_inv S j c →
    (∀ x ∈ ks, x.kids = n) → (∀ x ∈ ks, 0 < x.env.ret) →
    1 ≤ S / 2 ^ (j + polls (gate_run c ks)) →
    (∀ r ∈ gate_run c ks, r.ret = 0) ∧
    decay_inv S (j + polls (gate_run c ks)) (gate_final c ks) := by
  intro ks
  induction ks with
  | nil =>
    intro c j hinv _ _ _
    simpa [gate_run, gate_final, polls] using hinv
  | cons k ks ih =>
    intro c j hinv hkids hready hj
    have hk : k.kids = n := hkids k (List.mem_cons_self _ _)
    have hr : 0 < k.env.ret := hready k (List.mem_cons_self _ _)
    have hinv1 : decay_inv S j { c with num_kids := k.kids } := hinv
    have hcfg := wait_config k.env { c with num_kids := k.kids }
    simp only [gate_run, gate_final, polls, List.countP_cons] at hj ⊢
    by_cases hsel : (wait_for_incoming k.env { c with num_kids := k.kids }).selected.isSome = true
    · rw [if_pos hsel] at hj ⊢
      have hj1 : 1 ≤ S / 2 ^ (j + 1) := by
        have := int_halve_le S (j + 1)
          (List.countP (fun r => r.selected.isSome)
            (gate_run (wait_for_incoming k.env { c with num_kids := k.kids }).ctx ks)) (by omega)
        have e1 : j + (List.countP (fun r => r.selected.isSome)
            (gate_run (wait_for_incoming k.env { c with num_kids := k.kids }).ctx ks) + 1)
            = j + 1 + List.countP (fun r => r.selected.isSome)
            (gate_run (wait_for_incoming k.env { c with num_kids := k.kids }).ctx ks) := by omega
        rw [e1] at hj
        omega
      have hj0 : 1 ≤ S / 2 ^ j := by
        have := int_halve_le S j 1 (by omega)
        omega
      obtain ⟨hp, _, h1, _⟩ :=
        (decay_step S j k.env _ hinv1 hS hj0 (by simpa [hk] using hn) hr).1 hsel
      obtain ⟨hret, hstate⟩ := h1 hj1
      have hinv2 : decay_inv S (j + 1)
          (wait_for_incoming k.env { c with num_kids := k.kids }).ctx :=
        ⟨by rw [hcfg.2.2.1]; exact hinv.1, Or.inr ⟨by omega, hstate, hp⟩⟩
      have e1 : j + (List.countP (fun r => r.selected.isSome)
          (gate_run (wait_for_incoming k.env { c with num_kids := k.kids }).ctx ks) + 1)
          = j + 1 + polls
          (gate_run (wait_for_incoming k.env { c with num_kids := k.kids }).ctx ks) := by
        simp only [polls]; omega
      rw [e1] at hj ⊢
      obtain ⟨ih1, ih2⟩ := ih _ (j + 1) hinv2
        (fun x hx => hkids x (List.mem_cons_of_mem _ hx))
        (fun x hx => hready x (List.mem_cons_of_mem _ hx)) hj
      refine ⟨?_, ih2⟩
      intro r hr
      rcases List.mem_cons.1 hr with rfl | hr
      · exact hret
      · exact ih1 r hr
    · rw [if_neg hsel] at hj ⊢
      simp only [Nat.add_zero] at hj ⊢
      have hj0 : 1 ≤ S / 2 ^ j := by
        have := int_halve_le S j (List.countP (fun r => r.selected.isSome)
            (gate_run (wait_for_incoming k.env { c with num_kids := k.kids }).ctx ks)) (by omega)
        omega
      obtain ⟨hret, hctx⟩ :=
        (decay_step S j k.env _ hinv1 hS hj0 (by simpa [hk] using hn) hr).2 (by simpa using hsel)
      have hinv2 : decay_inv S j
          (wait_for_incoming k.env { c with num_kids := k.kids }).ctx := by
        rw [hctx]; exact hinv1
      obtain ⟨ih1, ih2⟩ := ih _ j hinv2
        (fun x hx => hkids x (List.mem_cons_of_mem _ hx))
        (fun x hx => hready x (List.mem_cons_of_mem _ hx)) hj
      refine ⟨?_, ih2⟩
      intro r hr
      rcases List.mem_cons.1 hr with rfl | hr
      · exact hret
      · exact ih1 r hr

theorem tv_split_total (p : Int) (h : 0 ≤ p) :
    tv_total ⟨Int.tdiv p 1000000, Int.tmod p 1000000⟩ = p := by
  rw [Int.tdiv_eq_ediv h (by decide), Int.tmod_eq_emod h (by decide)]
  simp only [tv_total]
  omega

/-- What lines 353-383 can do to the state and the wakeup. -/
theorem after_select_wakeup (e : gate_env) (c : prefork_ctx) (tv : timeval) :
    ((after_select e c tv).ret = 1 → (after_select e c tv).ctx.state = STATE_BACKOFF) ∧
    ((after_select e c tv).ctx.state = STATE_BACKOFF ∨
      (after_select e c tv).ctx.wakeup = c.wakeup ∨
      tv_total e.cur2 ≤ tv_total (after_select e c tv).ctx.wakeup) := by
  by_cases h0 : e.ret = 0
  · simp [after_select, h0]
  · by_cases h1 : e.ret = -1
    · simp [after_select, h1]
    · by_cases hs : c.state = STATE_IDLE
      · by_cases hc : c.num_kids = 0 ∨ Int.tdiv c.sample_time 2 < 1
        · simp [after_select, h0, h1, hs, hc]
        · have hp : 0 ≤ Int.tdiv c.sample_time 2 := by
            simp only [not_or, not_lt] at hc; omega
          have := tv_plus_total e.cur2
            ⟨Int.tdiv (Int.tdiv c.sample_time 2) 1000000,
             Int.tmod (Int.tdiv c.sample_time 2) 1000000⟩
          rw [tv_split_total _ hp] at this
          simp [after_select, h0, h1, hs, hc]
          right; right; omega
      · by_cases hc : c.num_kids = 0 ∨ Int.tdiv c.cur_pmt 2 < 1
        · simp [after_select, h0, h1, hs, hc]
        · have hp : 0 ≤ Int.tdiv c.cur_pmt 2 := by
            simp only [not_or, not_lt] at hc; omega
          have := tv_plus_total e.cur2
            ⟨Int.tdiv (Int.tdiv c.cur_pmt 2) 1000000,
             Int.tmod (Int.tdiv c.cur_pmt 2) 1000000⟩
          rw [tv_split_total _ hp] at this
          simp [after_select, h0, h1, hs, hc]
          right; right; omega

/-- A call that returns 1 leaves the gate in BACKOFF. -/
theorem spawn_backoff (e : gate_env) (c : prefork_ctx)
    (h : (wait_for_incoming e c).ret = 1) :
    (wait_for_incoming e c).ctx.state = STATE_BACKOFF := by
  unfold wait_for_incoming at h ⊢
  simp only [] at h ⊢
  split_ifs at h ⊢ <;>
    first
    | exact (after_select_wakeup _ _ _).1 h
    | simp at h

theorem rate_step (b R : Int) (e : gate_env) (c : prefork_ctx)
    (hR : c.rate_limit = R) (h0 : 0 ≤ R) (hinv : backoff_inv b c)
    (hcur : b - R ≤ tv_total e.cur) (hmono : tv_total e.cur ≤ tv_total e.cur2) :
    ((wait_for_incoming e c).ret = 1 → b ≤ tv_total e.cur) ∧
    backoff_inv b (wait_for_incoming e c).ctx := by
  by_cases hb : c.state = STATE_BACKOFF
  · have hw := tv_plus_total ⟨Int.tdiv c.rate_limit 1000000, Int.tmod c.rate_limit 1000000⟩ e.cur
    rw [tv_split_total _ (by omega)] at hw
    unfold wait_for_incoming
    simp only [hb, if_true]
    refine ⟨by simp, Or.inr ?_⟩
    simp only []
    omega
  · have hwk : b ≤ tv_total c.wakeup := by
      rcases hinv with h | h
      · exact absurd h hb
      · exact h
    by_cases hs : tv_gt (tv_minus c.wakeup e.cur) tv_zero = true
    · unfold wait_for_incoming
      simp only [hb, hs, if_true, if_false]
      exact ⟨by simp, Or.inr hwk⟩
    · have hle : tv_total c.wakeup ≤ tv_total e.cur := by
        rw [tv_gt_zero_iff _ (tv_minus_range _ _).1 (tv_minus_range _ _).2, tv_minus_total] at hs
        omega
      refine ⟨fun _ => by omega, ?_⟩
      have hafter : ∀ tv, backoff_inv b (after_select e c tv).ctx := by
        intro tv
        rcases (after_select_wakeup e c tv).2 with h | h | h
        · exact Or.inl h
        · exact Or.inr (by rw [h]; exact hwk)
        · exact Or.inr (by omega)
      unfold wait_for_incoming
      simp only [hb, hs, if_false]
      split_ifs <;> first | exact hafter _ | exact Or.inr hwk

theorem rate_run (b R : Int) (h0 : 0 ≤ R) :
    ∀ (ks : List gate_call) (c : prefork_ctx), backoff_inv b c → c.rate_limit = R →
    (∀ k ∈ ks, b - R ≤ tv_total k.env.cur ∧ tv_total k.env.cur ≤ tv_total k.env.cur2) →
    ∀ (j : Nat) (kj : gate_call) (rj : gate_result),
      ks[j]? = some kj → (gate_run c ks)[j]? = some rj → rj.ret = 1 →
      b ≤ tv_total kj.env.cur := by
  intro ks
  induction ks with
  | nil => intro c _ _ _ j kj rj hk; simp at hk
  | cons k ks ih =>
    intro c hinv hR hclk j kj rj hk hr h1
    have hinv1 : backoff_inv b { c with num_kids := k.kids } := hinv
    obtain ⟨hc1, hc2⟩ := hclk k (List.mem_cons_self _ _)
    obtain ⟨hs1, hs2⟩ := rate_step b R k.env { c with num_kids := k.kids } hR h0 hinv1 hc1 hc2
    cases j with
    | zero =>
      simp only [gate_run, List.getElem?_cons_zero, Option.some.injEq] at hk hr
      subst hk hr
      exact hs1 h1
    | succ j =>
      simp only [gate_run, List.getElem?_cons_succ] at hk hr
      exact ih _ hs2 (by rw [(wait_config _ _).2.1]; exact hR)
        (fun x hx => hclk x (List.mem_cons_of_mem _ hx)) j kj rj hk hr h1

theorem clock_readings_mem (ks : List gate_call) (k : gate_call) (h : k ∈ ks) :
    tv_total k.env.cur ∈ clock_readings ks ∧ tv_total k.env.seen ∈ clock_readings ks ∧
    tv_total k.env.cur2 ∈ clock_readings ks := by
  induction ks with
  | nil => simp at h
  | cons x xs ih =>
    rcases List.mem_cons.1 h with rfl | h
    · simp [clock_readings]
    · obtain ⟨a, b, c⟩ := ih h
      simp [clock_readings, a, b, c]

theorem clock_tail (k : gate_call) (ks : List gate_call) (h : clock_nondecreasing (k :: ks)) :
    clock_nondecreasing ks ∧ tv_total k.env.cur ≤ tv_total k.env.seen ∧
    tv_total k.env.seen ≤ tv_total k.env.cur2 ∧
    ∀ x ∈ clock_readings ks, tv_total k.env.cur2 ≤ x := by
  simp only [clock_nondecreasing, clock_readings, List.pairwise_cons] at h ⊢
  obtain ⟨h1, h2, h3, h4⟩ := h
  exact ⟨h4, h1 _ (by simp), h2 _ (by simp), h3⟩

theorem clock_within (ks : List gate_call) (h : clock_nondecreasing ks) :
    ∀ k ∈ ks, tv_total k.env.cur ≤ tv_total k.env.cur2 := by
  induction ks with
  | nil => intro k hk; simp at hk
  | cons x xs ih =>
    obtain ⟨ht, h1, h2, _⟩ := clock_tail x xs h
    intro k hk
    rcases List.mem_cons.1 hk with rfl | hk
    · omega
    · exact ih ht k hk

theorem rate_limit_pair (R : Int) (h0 : 0 ≤ R) :
    ∀ (i : Nat) (ks : List gate_call) (c : prefork_ctx) (j : Nat) (ki kj : gate_call)
      (ri rj : gate_result),
    c.rate_limit = R → clock_nondecreasing ks → i < j →
    ks[i]? = some ki → ks[j]? = some kj →
    (gate_run c ks)[i]? = some ri → (gate_run c ks)[j]? = some rj →
    ri.ret = 1 → rj.ret = 1 →
    tv_total ki.env.cur + R ≤ tv_total kj.env.cur ∧
    tv_total ki.env.seen + R ≤ tv_total kj.env.cur := by
  intro i
  induction i with
  | zero =>
    intro ks c j ki kj ri rj hR hclk hij hki hkj hri hrj h1 h2
    cases ks with
    | nil => simp at hki
    | cons k ks =>
      cases j with
      | zero => omega
      | succ j =>
        simp only [gate_run, List.getElem?_cons_zero, List.getElem?_cons_succ,
          Option.some.injEq] at hki hkj hri hrj
        subst hki hri
        obtain ⟨ht, hc1, hc2, hc3⟩ := clock_tail k ks hclk
        have hst := spawn_backoff _ _ h1
        have := rate_run (tv_total k.env.seen + R) R h0 ks _ (Or.inl hst)
          (by rw [(wait_config _ _).2.1]; exact hR)
          (fun x hx => ⟨by
            have := hc3 _ (clock_readings_mem ks x hx).1
            omega, clock_within ks ht x hx⟩) j kj rj hkj hrj h2
        omega
  | succ i ih =>
    intro ks c j ki kj ri rj hR hclk hij hki hkj hri hrj h1 h2
    cases ks with
    | nil => simp at hki
    | cons k ks =>
      cases j with
      | zero => omega
      | succ j =>
        simp only [gate_run, List.getElem?_cons_succ] at hki hkj hri hrj
        exact ih ks _ j ki kj ri rj (by rw [(wait_config _ _).2.1]; exact hR)
          (clock_tail k ks hclk).1 (by omega) hki hkj hri hrj h1 h2

/-! ### Lemmas on the main loop -/

theorem reap_nohang_eq (n : Nat) : ∀ kids : Int, reap_nohang n kids = kids - n := by
  induction n with
  | zero => intro kids; simp [reap_nohang]
  | succ n ih => intro kids; rw [reap_nohang, ih]; push_cast; ring

theorem blocking_reap_config (e : iter_env) (s : loop_state) :
    (blocking_reap e s).1.ctx.min_kids = s.ctx.min_kids ∧
    (blocking_reap e s).1.ctx.max_kids = s.ctx.max_kids := by
  unfold blocking_reap
  split_ifs <;> simp

theorem spawn_config (e : iter_env) (s : loop_state) :
    (spawn e s).state.ctx.min_kids = s.ctx.min_kids ∧
    (spawn e s).state.ctx.max_kids = s.ctx.max_kids ∧
    (spawn e s).state.die_now = s.die_now ∧
    (spawn e s).state.ctx.num_kids ≤ s.ctx.num_kids + 1 ∧
    (spawn e s).events = [event.make_kid s.ctx.num_kids e.pid] ∧
    (spawn e s).exit ≠ some loop_exit.broke ∧ (spawn e s).exit ≠ some loop_exit.returned := by
  unfold spawn make_kid
  split_ifs <;> simp

theorem loop_body_config (e : iter_env) (s : loop_state) :
    (loop_body e s).state.ctx.min_kids = s.ctx.min_kids ∧
    (loop_body e s).state.ctx.max_kids = s.ctx.max_kids := by
  have hb := blocking_reap_config e s
  unfold loop_body
  simp only []
  split_ifs
  · exact ⟨rfl, rfl⟩
  · simp only []
    rw [(spawn_config _ _).1, (spawn_config _ _).2.1]
    exact hb
  · simp only []
    rw [(wait_config _ _).2.2.2.2.1, (wait_config _ _).2.2.2.2.2]
    exact hb
  · simp only []
    rw [(wait_config _ _).2.2.2.2.1, (wait_config _ _).2.2.2.2.2]
    exact hb
  · simp only []
    rw [(spawn_config _ _).1, (spawn_config _ _).2.1]
    simp only []
    rw [(wait_config _ _).2.2.2.2.1, (wait_config _ _).2.2.2.2.2]
    exact hb

theorem signal_events_mem (sig : Option Int) (x : event) (h : x ∈ signal_events sig) :
    ∃ n, x = event.signal n := by
  cases sig with
  | none => simp [signal_events] at h
  | some n => exact ⟨n, by simpa [signal_events] using h⟩

theorem blocking_reap_events (e : iter_env) (s : loop_state) (x : event)
    (h : x ∈ (blocking_reap e s).2) : x = event.reap_block e.reap ∨ ∃ n, x = event.signal n := by
  unfold blocking_reap at h
  split_ifs at h
  · rcases List.mem_cons.1 h with h | h
    · exact Or.inl h
    · exact Or.inr (signal_events_mem _ _ h)
  · rcases List.mem_cons.1 h with h | h
    · exact Or.inl h
    · exact Or.inr (signal_events_mem _ _ h)
  · simp at h

theorem blocking_reap_lt (e : iter_env) (s : loop_state)
    (hle : s.ctx.num_kids ≤ s.ctx.max_kids) (hreap : e.reap ≠ -1) :
    (blocking_reap e s).1.ctx.num_kids < s.ctx.max_kids := by
  unfold blocking_reap
  split_ifs with h1
  · simp only []; omega
  · simp only []; omega

theorem blocking_reap_kids (e : iter_env) (s : loop_state) (x : event)
    (h : x ∈ (blocking_reap e s).2) : x.kids = none := by
  rcases blocking_reap_events e s x h with h | ⟨n, h⟩ <;> rw [h] <;> rfl

theorem signal_events_kids (sig : Option Int) (x : event) (h : x ∈ signal_events sig) :
    x.kids = none := by
  obtain ⟨n, h⟩ := signal_events_mem sig x h
  rw [h]; rfl

theorem loop_body_ceiling (e : iter_env) (s : loop_state)
    (hle : s.ctx.num_kids ≤ s.ctx.max_kids) (hreap : e.reap ≠ -1) :
    (loop_body e s).state.ctx.num_kids ≤ s.ctx.max_kids ∧
    ∀ x ∈ (loop_body e s).events, ∀ k, x.kids = some k → k < s.ctx.max_kids := by
  have hlt := blocking_reap_lt e s hle hreap
  have hev := blocking_reap_kids e s
  have hz := reap_nohang_eq e.zombies (blocking_reap e s).1.ctx.num_kids
  have hsig := signal_events_kids e.sig_poll
  unfold loop_body
  simp only []
  split_ifs
  · refine ⟨hle, ?_⟩
    intro x hx k hk
    simp only [List.mem_singleton] at hx
    rw [hx] at hk
    cases hk
  · simp only []
    obtain ⟨_, _, _, h4, h5, _⟩ := spawn_config e (blocking_reap e s).1
    refine ⟨by omega, ?_⟩
    intro x hx k hk
    rw [h5] at hx
    rcases List.mem_append.1 hx with h | h
    · rw [hev _ h] at hk; cases hk
    · simp only [List.mem_singleton] at h
      rw [h] at hk
      simp only [event.kids, Option.some.injEq] at hk
      omega
  · simp only []
    rw [(wait_config _ _).2.2.2.1]
    simp only []
    refine ⟨by omega, ?_⟩
    intro x hx k hk
    simp only [List.mem_append, List.mem_cons, List.mem_singleton, List.not_mem_nil,
      or_false] at hx
    rcases hx with (h | h | h) | h
    · rw [hev _ h] at hk; cases hk
    · rw [h] at hk; cases hk
    · rw [h] at hk
      simp only [event.kids, Option.some.injEq] at hk
      omega
    · rw [hsig _ h] at hk; cases hk
  · simp only []
    rw [(wait_config _ _).2.2.2.1]
    simp only []
    refine ⟨by omega, ?_⟩
    intro x hx k hk
    simp only [List.mem_append, List.mem_cons, List.mem_singleton, List.not_mem_nil,
      or_false] at hx
    rcases hx with (h | h | h) | h
    · rw [hev _ h] at hk; cases hk
    · rw [h] at hk; cases hk
    · rw [h] at hk
      simp only [event.kids, Option.some.injEq] at hk
      omega
    · rw [hsig _ h] at hk; cases hk
  · simp only []
    obtain ⟨_, _, _, h4, h5, _⟩ := spawn_config e
      { ctx := (wait_for_incoming e.gate
          { (blocking_reap e s).1.ctx with
            num_kids := reap_nohang e.zombies (blocking_reap e s).1.ctx.num_kids }).ctx,
        die_now := deliver e.sig_poll (blocking_reap e s).1.die_now }
    simp only [] at h4 h5
    rw [(wait_config _ _).2.2.2.1] at h4 h5
    simp only [] at h4 h5
    refine ⟨by omega, ?_⟩
    intro x hx k hk
    rw [h5] at hx
    simp only [List.mem_append, List.mem_cons, List.mem_singleton, List.not_mem_nil,
      or_false] at hx
    rcases hx with ((h | h | h) | h) | h
    · rw [hev _ h] at hk; cases hk
    · rw [h] at hk; cases hk
    · rw [h] at hk
      simp only [event.kids, Option.some.injEq] at hk
      omega
    · rw [hsig _ h] at hk; cases hk
    · rw [h] at hk
      simp only [event.kids, Option.some.injEq] at hk
      omega

theorem main_loop_ceiling :
    ∀ (es : List iter_env) (s : loop_state), s.ctx.num_kids ≤ s.ctx.max_kids →
    (∀ e ∈ es, e.reap ≠ -1) →
    (main_loop es s).state.ctx.num_kids ≤ s.ctx.max_kids ∧
    ∀ x ∈ (main_loop es s).events, ∀ k, x.kids = some k → k < s.ctx.max_kids := by
  intro es
  induction es with
  | nil =>
    intro s hle _
    exact ⟨hle, by intro x hx; simp [main_loop] at hx⟩
  | cons e es ih =>
    intro s hle hreap
    obtain ⟨h1, h2⟩ := loop_body_ceiling e s hle (hreap e (List.mem_cons_self _ _))
    have hmax := (loop_body_config e s).2
    simp only [main_loop]
    split
    · exact ⟨h1, h2⟩
    · obtain ⟨i1, i2⟩ := ih (loop_body e s).state (by rw [hmax]; exact h1)
        (fun x hx => hreap x (List.mem_cons_of_mem _ hx))
      rw [hmax] at i1 i2
      refine ⟨i1, ?_⟩
      intro x hx k hk
      rcases List.mem_append.1 hx with h | h
      · exact h2 x h k hk
      · exact i2 x h k hk

theorem floor_ok_of_no_poll (min : Int) (evs : List event)
    (h : ∀ x ∈ evs, ∀ k r, x ≠ event.poll k r) : floor_ok min evs := by
  intro pre post k r heq
  exact absurd rfl (h (event.poll k r) (by rw [heq]; simp) k r)

theorem floor_ok_append (min : Int) (a b : List event)
    (ha : floor_ok min a) (hb : floor_ok min b) : floor_ok min (a ++ b) := by
  intro pre post k r heq
  rcases List.append_eq_append_iff.1 heq with ⟨a1, h1, h2⟩ | ⟨c1, h1, h2⟩
  · obtain ⟨pre1, n, hp, hn⟩ := hb a1 post k r h2
    exact ⟨a ++ pre1, n, by rw [h1, hp, List.append_assoc], hn⟩
  · cases c1 with
    | nil =>
      simp only [List.nil_append] at h2
      obtain ⟨pre1, n, hp, _⟩ := hb [] post k r h2.symm
      simp at hp
    | cons x c2 =>
      simp only [List.cons_append, List.cons.injEq] at h2
      obtain ⟨hx, _⟩ := h2
      subst hx
      exact ha pre c2 k r h1

theorem floor_ok_pair (min k r : Int) (n : Nat) (sig : List event)
    (hs : ∀ x ∈ sig, ∀ k r, x ≠ event.poll k r) (h : min ≤ k + (n : Int)) :
    floor_ok min ([event.reap_nohang n, event.poll k r] ++ sig) := by
  apply floor_ok_append _ _ _ _ (floor_ok_of_no_poll _ _ hs)
  intro pre post k1 r1 heq
  cases pre with
  | nil => simp at heq
  | cons x pre =>
    cases pre with
    | nil =>
      simp only [List.cons_append, List.nil_append, List.cons.injEq, event.poll.injEq] at heq
      obtain ⟨hx, ⟨hk, _⟩, _⟩ := heq
      exact ⟨[], n, by simp [hx], by omega⟩
    | cons y pre =>
      simp only [List.cons_append, List.cons.injEq] at heq
      obtain ⟨_, _, h3⟩ := heq
      cases pre <;> simp at h3

theorem no_poll_blocking_reap (e : iter_env) (s : loop_state) :
    ∀ x ∈ (blocking_reap e s).2, ∀ k r, x ≠ event.poll k r := by
  intro x hx k r hxe
  rcases blocking_reap_events e s x hx with h | ⟨n, h⟩ <;> rw [h] at hxe <;> cases hxe

theorem no_poll_signal (sig : Option Int) :
    ∀ x ∈ signal_events sig, ∀ k r, x ≠ event.poll k r := by
  intro x hx k r hxe
  obtain ⟨n, h⟩ := signal_events_mem sig x hx
  rw [h] at hxe
  cases hxe

theorem no_poll_spawn (e : iter_env) (s : loop_state) :
    ∀ x ∈ (spawn e s).events, ∀ k r, x ≠ event.poll k r := by
  intro x hx k r hxe
  rw [(spawn_config e s).2.2.2.2.1] at hx
  simp only [List.mem_singleton] at hx
  rw [hx] at hxe
  cases hxe

theorem loop_body_floor_ok (e : iter_env) (s : loop_state) :
    floor_ok s.ctx.min_kids (loop_body e s).events := by
  have hmin := (blocking_reap_config e s).1
  have hz := reap_nohang_eq e.zombies (blocking_reap e s).1.ctx.num_kids
  have hbr := floor_ok_of_no_poll s.ctx.min_kids _ (no_poll_blocking_reap e s)
  unfold loop_body
  simp only []
  split_ifs with h1 h2 h3 h4
  · exact floor_ok_of_no_poll _ _ (by intro x hx k r; simp at hx; rw [hx]; simp)
  · exact floor_ok_append _ _ _ hbr (floor_ok_of_no_poll _ _ (no_poll_spawn _ _))
  · simp only [List.append_assoc]
    exact floor_ok_append _ _ _ hbr
      (floor_ok_pair _ _ _ _ _ (no_poll_signal _) (by omega))
  · simp only [List.append_assoc]
    exact floor_ok_append _ _ _ hbr
      (floor_ok_pair _ _ _ _ _ (no_poll_signal _) (by omega))
  · simp only [List.append_assoc]
    refine floor_ok_append _ _ _ hbr ?_
    rw [← List.append_assoc]
    exact floor_ok_append _ _ _ (floor_ok_pair _ _ _ _ _ (no_poll_signal _) (by omega))
      (floor_ok_of_no_poll _ _ (no_poll_spawn _ _))

theorem main_loop_floor_ok :
    ∀ (es : List iter_env) (s : loop_state), floor_ok s.ctx.min_kids (main_loop es s).events := by
  intro es
  induction es with
  | nil =>
    intro s
    exact floor_ok_of_no_poll _ _ (by intro x hx; simp [main_loop] at hx)
  | cons e es ih =>
    intro s
    have h1 := loop_body_floor_ok e s
    have h2 := ih (loop_body e s).state
    rw [(loop_body_config e s).1] at h2
    simp only [main_loop]
    split
    · exact h1
    · exact floor_ok_append _ _ _ h1 h2

/-- A floor check that fails ends the iteration with one `make_kid` call. -/
theorem loop_body_below_floor (e : iter_env) (s : loop_state) (hd : s.die_now = 0)
    (hlt : (blocking_reap e s).1.ctx.num_kids < s.ctx.min_kids) :
    (loop_body e s).events
      = (blocking_reap e s).2 ++ [event.make_kid (blocking_reap e s).1.ctx.num_kids e.pid] ∧
    (loop_body e s).exit = (if e.pid = 0 then some loop_exit.child else none) := by
  have hmin := (blocking_reap_config e s).1
  unfold loop_body
  simp only [hd, ne_eq, not_true_eq_false, if_false]
  rw [if_pos (by omega)]
  simp only []
  refine ⟨by rw [(spawn_config _ _).2.2.2.2.1], ?_⟩
  unfold spawn make_kid
  split_ifs <;> simp

theorem deliver_one (sig : Option Int) : deliver sig 1 = 1 := by
  cases sig with
  | none => rfl
  | some n => simp only [deliver, sighndler]; split_ifs <;> rfl

theorem deliver_term (sig : Option Int) (d : Int)
    (h : sig = some SIGTERM ∨ sig = some SIGHUP) : deliver sig d = 1 := by
  rcases h with h | h <;> subst h <;> simp [deliver, sighndler]

theorem blocking_reap_full (e : iter_env) (s : loop_state)
    (hfull : s.ctx.num_kids ≥ s.ctx.max_kids) :
    (blocking_reap e s).1.die_now = deliver e.sig_reap s.die_now ∧
    (blocking_reap e s).2 = event.reap_block e.reap :: signal_events e.sig_reap := by
  unfold blocking_reap
  rw [if_pos hfull]
  simp only []
  split_ifs <;> exact ⟨rfl, rfl⟩

theorem count_blocking_reap (e : iter_env) (s : loop_state) :
    (blocking_reap e s).2.countP event.is_make_kid = 0 := by
  rw [List.countP_eq_zero]
  intro x hx
  rcases blocking_reap_events e s x hx with h | ⟨n, h⟩ <;> rw [h] <;> simp [event.is_make_kid]

theorem count_signal (sig : Option Int) :
    (signal_events sig).countP event.is_make_kid = 0 := by
  rw [List.countP_eq_zero]
  intro x hx
  obtain ⟨n, h⟩ := signal_events_mem sig x hx
  rw [h]; simp [event.is_make_kid]

theorem count_spawn (e : iter_env) (s : loop_state) :
    (spawn e s).events.countP event.is_make_kid = 1 := by
  rw [(spawn_config e s).2.2.2.2.1]
  simp [event.is_make_kid]

/-- One iteration calls `make_kid` at most once and never clears `die_now`
once the blocking reap has left it at 1. -/
theorem loop_body_after_signal (e : iter_env) (s : loop_state)
    (h1 : (blocking_reap e s).1.die_now = 1) :
    (loop_body e s).events.countP event.is_make_kid ≤ 1 ∧
    (s.die_now = 0 → (loop_body e s).state.die_now = 1) := by
  have c1 := count_blocking_reap e s
  have c2 := count_signal e.sig_poll
  have hd := deliver_one e.sig_poll
  unfold loop_body
  simp only []
  split_ifs with g1 g2 g3 g4
  · exact ⟨by simp [event.is_make_kid], fun h => absurd h g1⟩
  · simp only [List.countP_append, c1, count_spawn, (spawn_config _ _).2.2.1]
    exact ⟨by omega, fun _ => h1⟩
  · simp only [List.countP_append, c1, c2, h1, hd]
    exact ⟨by simp [event.is_make_kid], fun _ => trivial⟩
  · simp only [List.countP_append, c1, c2, h1, hd]
    exact ⟨by simp [event.is_make_kid], fun _ => trivial⟩
  · simp only [List.countP_append, c1, c2, count_spawn, (spawn_config _ _).2.2.1, h1, hd]
    exact ⟨by simp [event.is_make_kid], fun _ => trivial⟩

/-- With `die_now` set, the loop ends at the start of its next iteration. -/
theorem main_loop_dying (e : iter_env) (es : List iter_env) (s : loop_state)
    (h : s.die_now = 1) :
    main_loop (e :: es) s
      = { state := s, events := [event.killpg], exit := some loop_exit.broke } := by
  have hb : loop_body e s
      = { state := s, events := [event.killpg], exit := some loop_exit.broke } := by
    unfold loop_body
    rw [if_pos (by rw [h]; decide)]
  simp only [main_loop, hb]

/-! ## Theorems -/

/-- C7. Clock arithmetic: for all timevals, `tv_plus` and `tv_minus` leave a
result whose `tv_usec` lies in `[0, 1000000)` (the exit conditions of both
loops of `tv_normalise`), whose microsecond total is exactly the sum,
respectively the difference, of the operands' totals, and whose seconds field
is the sum (difference) of the seconds plus the carry or borrow, the floor of
the microsecond sum (difference) divided by 1000000.  The loops of
`tv_normalise` terminate: `n` carry iterations and `m` borrow iterations give
its result as soon as `tv_usec < 1000000 * (n + 1)` and
`-1000000 * m <= tv_usec`. -/
theorem clock_arithmetic (t1 t2 : timeval) :
    (0 ≤ (tv_plus t1 t2).tv_usec ∧ (tv_plus t1 t2).tv_usec < 1000000 ∧
      tv_total (tv_plus t1 t2) = tv_total t1 + tv_total t2 ∧
      (tv_plus t1 t2).tv_sec = t1.tv_sec + t2.tv_sec + (t1.tv_usec + t2.tv_usec) / 1000000) ∧
    (0 ≤ (tv_minus t1 t2).tv_usec ∧ (tv_minus t1 t2).tv_usec < 1000000 ∧
      tv_total (tv_minus t1 t2) = tv_total t1 - tv_total t2 ∧
      (tv_minus t1 t2).tv_sec = t1.tv_sec - t2.tv_sec + (t1.tv_usec - t2.tv_usec) / 1000000) ∧
    (∀ (t : timeval) (n m : Nat), t.tv_usec < 1000000 * ((n : Int) + 1) →
      -(1000000 * (m : Int)) ≤ t.tv_usec →
      borrow_loop m (carry_loop n t) = tv_normalise t) := by
  refine ⟨⟨(tv_plus_range t1 t2).1, (tv_plus_range t1 t2).2, tv_plus_total t1 t2, ?_⟩,
    ⟨(tv_minus_range t1 t2).1, (tv_minus_range t1 t2).2, tv_minus_total t1 t2, ?_⟩,
    tv_normalise_bounds⟩
  · rw [tv_plus, tv_normalise_eq]
  · rw [tv_minus, tv_normalise_eq]

/-- Witness for `clock_arithmetic`: a sum with a carry, a difference with a
borrow, and a timeval that needs three borrow iterations. -/
theorem clock_arithmetic_witness :
    tv_plus ⟨1, 999999⟩ ⟨2, 999999⟩ = ⟨4, 999998⟩ ∧
    tv_minus ⟨1, 5⟩ ⟨2, 999999⟩ = ⟨-2, 6⟩ ∧
    tv_total (tv_minus ⟨1, 5⟩ ⟨2, 999999⟩) = tv_total ⟨1, 5⟩ - tv_total ⟨2, 999999⟩ ∧
    borrow_loop 3 (carry_loop 0 ⟨0, -2000001⟩) = tv_normalise ⟨0, -2000001⟩ :=
  ⟨by decide, by decide, (clock_arithmetic ⟨1, 5⟩ ⟨2, 999999⟩).2.1.2.2.1,
    (clock_arithmetic ⟨1, 5⟩ ⟨2, 999999⟩).2.2 ⟨0, -2000001⟩ 0 3 (by decide) (by decide)⟩

/-- C10 (as stated, refuted). A gate in state SAMPLING reaches the readiness
wait, `select` fails with -1, and the call returns 0 with the state still
SAMPLING, not IDLE. -/
theorem select_error_keeps_state :
    (wait_for_incoming (env_at 10 (-1)) sampling_ctx).selected = some ⟨0, 0⟩ ∧
    (wait_for_incoming (env_at 10 (-1)) sampling_ctx).ret = 0 ∧
    (wait_for_incoming (env_at 10 (-1)) sampling_ctx).ctx.state = STATE_SAMPLING ∧
    (wait_for_incoming (env_at 10 (-1)) sampling_ctx).ctx.state ≠ STATE_IDLE := by
  decide

/-- C10 (amended). For every call that reaches the readiness wait: when `select`
returns 0 the call sets the state to IDLE and returns 0; when `select` returns
-1 the call returns 0 and leaves the state as it was; in both cases every other
field of the context (`wakeup`, `last_select_seen`, `cur_pmt` among them) is
unchanged. -/
theorem readiness_wait_failure (e : gate_env) (c : prefork_ctx)
    (h : (wait_for_incoming e c).selected.isSome = true) :
    (e.ret = 0 →
      (wait_for_incoming e c).ret = 0 ∧
      (wait_for_incoming e c).ctx = { c with state := STATE_IDLE }) ∧
    (e.ret = -1 →
      (wait_for_incoming e c).ret = 0 ∧ (wait_for_incoming e c).ctx = c) := by
  obtain ⟨tv, htv⟩ := selected_after_select e c h
  rw [htv]
  unfold after_select
  constructor
  · intro h0
    simp [h0]
  · intro h1
    simp [h1]

/-- Witness for `readiness_wait_failure`: a SAMPLING gate whose wakeup has
passed and whose readiness wait times out. -/
theorem readiness_wait_failure_witness :
    (wait_for_incoming (env_at 10 0) sampling_ctx).selected.isSome = true ∧
    (wait_for_incoming (env_at 10 0) sampling_ctx).ret = 0 ∧
    (wait_for_incoming (env_at 10 0) sampling_ctx).ctx
      = { sampling_ctx with state := STATE_IDLE } :=
  ⟨by decide, (readiness_wait_failure (env_at 10 0) sampling_ctx (by decide)).1 rfl⟩

/-- C3 (as stated, refuted). An idle gate with `timeout = 1`, no kids and no
floor is polled exactly 1 second after `last_select_seen`: the call does not
return -1 but performs the readiness wait, with a zero timeout, and returns 0. -/
theorem idle_shutdown_boundary :
    (idle_ctx 1).state = STATE_IDLE ∧
    tv_total (idle_ctx 1).wakeup ≤ tv_total (env_at 1 0).cur ∧
    0 < (idle_ctx 1).timeout ∧ (idle_ctx 1).min_kids = 0 ∧ (idle_ctx 1).num_kids = 0 ∧
    (idle_ctx 1).timeout * 1000000
      ≤ tv_total (env_at 1 0).cur - tv_total (idle_ctx 1).last_select_seen ∧
    (wait_for_incoming (env_at 1 0) (idle_ctx 1)).ret = 0 ∧
    (wait_for_incoming (env_at 1 0) (idle_ctx 1)).selected = some ⟨0, 0⟩ := by
  decide

/-- C3 (amended). For every gate in state IDLE whose wakeup is not in the
future, with `timeout = T > 0`, `min_kids = 0` and `num_kids = 0`: if the
current time minus `last_select_seen` is more than `T` seconds, then
`wait_for_incoming` returns -1 without sleeping and without performing the
readiness wait, and leaves the context as it was. -/
theorem idle_shutdown (e : gate_env) (c : prefork_ctx)
    (hs : c.state = STATE_IDLE)
    (hw : tv_total c.wakeup ≤ tv_total e.cur)
    (hT : 0 < c.timeout) (hmin : c.min_kids = 0) (hk : c.num_kids = 0)
    (hel : c.timeout * 1000000 < tv_total e.cur - tv_total c.last_select_seen) :
    (wait_for_incoming e c).ret = -1 ∧
    (wait_for_incoming e c).selected = none ∧
    (wait_for_incoming e c).slept = none ∧
    (wait_for_incoming e c).ctx = c := by
  have h1 : tv_gt (tv_minus c.wakeup e.cur) tv_zero = false := by
    rw [Bool.eq_false_iff]
    intro h
    rw [tv_gt_zero_iff _ (tv_minus_range _ _).1 (tv_minus_range _ _).2, tv_minus_total] at h
    omega
  have h2 : tv_gt tv_zero
      (tv_minus (tv_plus c.last_select_seen ⟨c.timeout, 0⟩) e.cur) = true := by
    rw [tv_zero_gt_iff _ (tv_minus_range _ _).1 (tv_minus_range _ _).2, tv_minus_total,
      tv_plus_total]
    simp only [tv_total] at hel ⊢
    omega
  unfold wait_for_incoming
  simp [hs, STATE_IDLE, STATE_BACKOFF, h1, h2, hT, hmin, hk]

/-- Witness for `idle_shutdown`: timeout 1 second, polled 2 seconds after the
last readiness. -/
theorem idle_shutdown_witness :
    (idle_ctx 1).state = STATE_IDLE ∧
    tv_total (idle_ctx 1).wakeup ≤ tv_total (env_at 2 1).cur ∧
    (wait_for_incoming (env_at 2 1) (idle_ctx 1)).ret = -1 ∧
    (wait_for_incoming (env_at 2 1) (idle_ctx 1)).selected = none ∧
    (wait_for_incoming (env_at 2 1) (idle_ctx 1)).slept = none ∧
    (wait_for_incoming (env_at 2 1) (idle_ctx 1)).ctx = idle_ctx 1 :=
  ⟨by decide, by decide,
    idle_shutdown (env_at 2 1) (idle_ctx 1) (by decide) (by decide) (by decide) (by decide)
      (by decide) (by decide)⟩

/-- C4. Configuration validation: whenever the option loop completes with
`max_kids < min_kids`, `prefork_process_args` returns 0 and `main` exits with
status 1 having run neither `prefork_setup` nor `main_loop` (its log of steps is
empty, so no `make_kid`), whatever the environment; whenever it completes with
`max_kids >= min_kids`, `prefork_process_args` returns 1. -/
theorem config_validation (opts : List opt) (ctx : prefork_ctx)
    (h : getopt_loop ctx_defaults opts = some ctx) :
    (ctx.max_kids < ctx.min_kids →
      prefork_process_args opts = some (ctx, 0) ∧
      ∀ env : main_env, main opts env = { status := some 1, log := [], final := none }) ∧
    (ctx.max_kids ≥ ctx.min_kids → prefork_process_args opts = some (ctx, 1)) := by
  constructor
  · intro hlt
    have hp : prefork_process_args opts = some (ctx, 0) := by
      simp [prefork_process_args, h, hlt]
    refine ⟨hp, ?_⟩
    intro env
    simp [main, hp]
  · intro hge
    have : ¬ ctx.max_kids < ctx.min_kids := by omega
    simp [prefork_process_args, h, this]

/-- Witness for `config_validation`: the options `-N 1 -n 2`. -/
theorem config_validation_witness :
    getopt_loop ctx_defaults [opt.N 1, opt.n 2]
      = some { ctx_defaults with max_kids := 1, min_kids := 2 } ∧
    prefork_process_args [opt.N 1, opt.n 2]
      = some ({ ctx_defaults with max_kids := 1, min_kids := 2 }, 0) ∧
    ∀ env : main_env,
      main [opt.N 1, opt.n 2] env = { status := some 1, log := [], final := none } :=
  ⟨by decide,
    (config_validation [opt.N 1, opt.n 2] { ctx_defaults with max_kids := 1, min_kids := 2 }
      (by decide)).1 (by decide)⟩

/-- C9 (the code at the failing input `-n 1`). The state `main` hands to
`main_loop` has `ctx.state = 0`, which is not `STATE_IDLE`.  The first
iteration spawns the one required kid; in the second the descriptor is ready
and the first call of `wait_for_incoming`, made with one kid alive, returns 1
at once, leaving `cur_pmt = 0` and state BACKOFF, so a second kid is spawned.
Run from the same state with `ctx.state = STATE_IDLE`, the same two
iterations end with that call returning 0, in state SAMPLING with
`cur_pmt = 8192`, and no second kid. -/
theorem initial_state_not_idle :
    (main [opt.n 1] (env_of [])).final.map (fun s => s.ctx.state) = some 0 ∧
    (0 : Int) ≠ STATE_IDLE ∧
    (main [opt.n 1] (env_of [])).final
      = some { floor_state with ctx := { floor_state.ctx with state := 0 } } ∧
    (main [opt.n 1] (env_of [iter_at none 0 0 1 1 101, iter_at none 0 0 2 1 102])).log
      = [event.setup, event.swizzle, event.make_kid 0 101, event.reap_nohang 0,
         event.poll 1 1, event.make_kid 1 102] ∧
    (main [opt.n 1] (env_of [iter_at none 0 0 1 1 101, iter_at none 0 0 2 1 102])).final.map
      (fun s => (s.ctx.state, s.ctx.cur_pmt)) = some (STATE_BACKOFF, 0) ∧
    (main_loop [iter_at none 0 0 1 1 101, iter_at none 0 0 2 1 102] floor_state).events
      = [event.make_kid 0 101, event.reap_nohang 0, event.poll 1 0] ∧
    ((main_loop [iter_at none 0 0 1 1 101, iter_at none 0 0 2 1 102] floor_state).state.ctx.state,
     (main_loop [iter_at none 0 0 1 1 101, iter_at none 0 0 2 1 102]
        floor_state).state.ctx.cur_pmt) = (STATE_SAMPLING, 8192) := by
  decide

/-- C2. Sampling decay: start in state IDLE with `sample_time = S >= 1`, keep
`num_kids = n > 0`, and let every readiness wait report the descriptor ready.
Take any run `pre` whose `j` readiness polls have not yet brought the interval
below 1 (`1 <= S / 2^j`): every call of `pre` returned 0, the gate is in
SAMPLING with `cur_pmt = S / 2^j` once `j >= 1` (and still IDLE when `j = 0`).
If the next call is a readiness poll, it leaves `cur_pmt = S / 2^(j+1)`,
strictly less than `S / 2^j`; it returns 0 in state SAMPLING when that value
is at least 1, and returns 1 leaving state BACKOFF when it is below 1.
Moreover, whenever `num_kids = 0` a readiness poll that finds the descriptor
ready returns 1 and leaves state BACKOFF, whatever the interval. -/
theorem sampling_decay (c0 : prefork_ctx) (pre : List gate_call) (k : gate_call) (S n : Int)
    (hidle : c0.state = STATE_IDLE) (hS : c0.sample_time = S) (h1 : 1 ≤ S) (hn : 0 < n)
    (hkids : ∀ x ∈ pre ++ [k], x.kids = n)
    (hready : ∀ x ∈ pre ++ [k], 0 < x.env.ret)
    (hj : 1 ≤ S / 2 ^ polls (gate_run c0 pre))
    (hpoll : (wait_for_incoming k.env
      { gate_final c0 pre with num_kids := k.kids }).selected.isSome = true) :
    ((∀ r ∈ gate_run c0 pre, r.ret = 0) ∧
      (polls (gate_run c0 pre) = 0 → (gate_final c0 pre).state = STATE_IDLE) ∧
      (1 ≤ polls (gate_run c0 pre) →
        (gate_final c0 pre).state = STATE_SAMPLING ∧
        (gate_final c0 pre).cur_pmt = S / 2 ^ polls (gate_run c0 pre)) ∧
      (wait_for_incoming k.env { gate_final c0 pre with num_kids := k.kids }).ctx.cur_pmt
        = S / 2 ^ (polls (gate_run c0 pre) + 1) ∧
      (wait_for_incoming k.env { gate_final c0 pre with num_kids := k.kids }).ctx.cur_pmt
        < S / 2 ^ polls (gate_run c0 pre) ∧
      (1 ≤ S / 2 ^ (polls (gate_run c0 pre) + 1) →
        (wait_for_incoming k.env { gate_final c0 pre with num_kids := k.kids }).ret = 0 ∧
        (wait_for_incoming k.env { gate_final c0 pre with num_kids := k.kids }).ctx.state
          = STATE_SAMPLING) ∧
      (S / 2 ^ (polls (gate_run c0 pre) + 1) < 1 →
        (wait_for_incoming k.env { gate_final c0 pre with num_kids := k.kids }).ret = 1 ∧
        (wait_for_incoming k.env { gate_final c0 pre with num_kids := k.kids }).ctx.state
          = STATE_BACKOFF)) ∧
    (∀ (e : gate_env) (c : prefork_ctx), c.num_kids = 0 → 0 < e.ret →
      (wait_for_incoming e c).selected.isSome = true →
      (wait_for_incoming e c).ret = 1 ∧ (wait_for_incoming e c).ctx.state = STATE_BACKOFF) := by
  constructor
  · have hinv0 : decay_inv S 0 c0 := ⟨hS, Or.inl ⟨rfl, hidle⟩⟩
    obtain ⟨hrets, hinv⟩ := decay_run S n h1 hn pre c0 0 hinv0
      (fun x hx => hkids x (List.mem_append_left _ hx))
      (fun x hx => hready x (List.mem_append_left _ hx)) (by simpa using hj)
    simp only [Nat.zero_add] at hinv
    have hk : k.kids = n := hkids k (by simp)
    have hr : 0 < k.env.ret := hready k (by simp)
    have hinv1 : decay_inv S (polls (gate_run c0 pre))
        { gate_final c0 pre with num_kids := k.kids } := hinv
    obtain ⟨hp, hlt, hge, hsp⟩ :=
      (decay_step S _ k.env _ hinv1 h1 hj (by simpa [hk] using hn) hr).1 hpoll
    refine ⟨hrets, ?_, ?_, hp, hlt, hge, hsp⟩
    · intro h0
      rcases hinv.2 with ⟨_, h⟩ | ⟨h, _⟩
      · exact h
      · omega
    · intro hge1
      rcases hinv.2 with ⟨h, _⟩ | ⟨_, h, hc⟩
      · omega
      · exact ⟨h, hc⟩
  · intro e c hk hr hsel
    obtain ⟨tv, htv⟩ := selected_after_select e c hsel
    rw [htv]
    exact (after_select_ready e c tv (by omega) (by omega)).2.1 (Or.inl hk)

/-- Witness for `sampling_decay`: `sample_time = 4`, one kid, polls at seconds
1, 2 and 3; the third poll brings the interval to `4 / 8 = 0` and spawns. -/
theorem sampling_decay_witness :
    decay_ctx.state = STATE_IDLE ∧
    (1 : Int) ≤ 4 / 2 ^ polls (gate_run decay_ctx [ready_call 1 1, ready_call 1 2]) ∧
    (wait_for_incoming (ready_call 1 3).env
      { gate_final decay_ctx [ready_call 1 1, ready_call 1 2] with
        num_kids := (ready_call 1 3).kids }).selected.isSome = true ∧
    (wait_for_incoming (ready_call 1 3).env
      { gate_final decay_ctx [ready_call 1 1, ready_call 1 2] with
        num_kids := (ready_call 1 3).kids }).ret = 1 ∧
    (wait_for_incoming (ready_call 1 3).env
      { gate_final decay_ctx [ready_call 1 1, ready_call 1 2] with
        num_kids := (ready_call 1 3).kids }).ctx.state = STATE_BACKOFF :=
  ⟨by decide, by decide, by decide,
    (sampling_decay decay_ctx [ready_call 1 1, ready_call 1 2] (ready_call 1 3) 4 1
      (by decide) (by decide) (by decide) (by decide) (by decide) (by decide) (by decide)
      (by decide)).1.2.2.2.2.2.2 (by decide)⟩

/-- C1. Rate limit: in every sequence `ks` of `wait_for_incoming` calls on one
context with `rate_limit = R >= 0` (the caller free to change `num_kids`
between calls), made under a clock that never goes back, if call `i` and a
later call `j` both return 1, then the clock read at the start of call `j` is
at least `R` microseconds after both clock readings of call `i` (the one at its
start and the one stored in `last_select_seen`).  This covers in particular
two consecutive calls that return 1. -/
theorem rate_limit_spacing (c : prefork_ctx) (ks : List gate_call) (R : Int) (i j : Nat)
    (ki kj : gate_call)
    (hR : c.rate_limit = R) (h0 : 0 ≤ R) (hclock : clock_nondecreasing ks) (hij : i < j)
    (hki : ks[i]? = some ki) (hkj : ks[j]? = some kj)
    (hri : ((gate_run c ks)[i]?).map (fun r => r.ret) = some 1)
    (hrj : ((gate_run c ks)[j]?).map (fun r => r.ret) = some 1) :
    tv_total ki.env.cur + R ≤ tv_total kj.env.cur ∧
    tv_total ki.env.seen + R ≤ tv_total kj.env.cur := by
  obtain ⟨ri, hri1, hri2⟩ := Option.map_eq_some'.1 hri
  obtain ⟨rj, hrj1, hrj2⟩ := Option.map_eq_some'.1 hrj
  exact rate_limit_pair R h0 i ks c j ki kj ri rj hR hclock hij hki hkj hri1 hrj1 hri2 hrj2

/-- Witness for `rate_limit_spacing`: the default `rate_limit` of 32768 microseconds,
spawns at seconds 1 and 3 with the backoff call at second 2 in between. -/
theorem rate_limit_spacing_witness :
    rate_ctx.rate_limit = 32768 ∧ clock_nondecreasing rate_calls ∧
    ((gate_run rate_ctx rate_calls)[0]?).map (fun r => r.ret) = some 1 ∧
    ((gate_run rate_ctx rate_calls)[1]?).map (fun r => r.ret) = some 0 ∧
    ((gate_run rate_ctx rate_calls)[2]?).map (fun r => r.ret) = some 1 ∧
    tv_total (ready_call 0 1).env.cur + 32768 ≤ tv_total (ready_call 0 3).env.cur ∧
    tv_total (ready_call 0 1).env.seen + 32768 ≤ tv_total (ready_call 0 3).env.cur :=
  ⟨by decide, by decide, by decide, by decide, by decide,
    rate_limit_spacing rate_ctx rate_calls 32768 0 2 (ready_call 0 1) (ready_call 0 3)
      (by decide) (by decide) (by decide) (by decide) (by decide) (by decide) (by decide)
      (by decide)⟩

/-- C5 (as stated, refuted). With `-n 1` the first iteration spawns the one
required kid; in the second iteration the floor check of line 443 passes
(`num_kids = 1`), the non-blocking reap collects that kid, and
`wait_for_incoming` is called with `num_kids = 0 < min_kids = 1`. -/
theorem poll_below_floor :
    (main [opt.n 1] (env_of [iter_at none 0 0 1 1 101, iter_at none 0 1 2 1 102])).log
      = [event.setup, event.swizzle, event.make_kid 0 101, event.reap_nohang 1,
         event.poll 0 1, event.make_kid 0 102] ∧
    (main [opt.n 1] (env_of [iter_at none 0 0 1 1 101, iter_at none 0 1 2 1 102])).final.map
      (fun s => s.ctx.min_kids) = some 1 := by
  decide

/-- C5 (amended). In every run of `main_loop`, each call of `wait_for_incoming`
comes right after the non-blocking reap of an iteration whose floor check
passed: the `num_kids` it is called with, plus the number of kids that reap
has just collected, is at least `min_kids`.  And in every iteration that
reaches the floor check of line 443 with `num_kids < min_kids`, the loop
calls `make_kid` and ends the iteration there, without polling: it restarts
(or, in the forked child, exits). -/
theorem floor_before_polling (es : List iter_env) (s : loop_state) :
    (∀ pre post k r, (main_loop es s).events = pre ++ event.poll k r :: post →
      ∃ pre1 n, pre = pre1 ++ [event.reap_nohang n] ∧ s.ctx.min_kids ≤ k + (n : Int)) ∧
    (∀ e : iter_env, s.die_now = 0 →
      (blocking_reap e s).1.ctx.num_kids < s.ctx.min_kids →
      (loop_body e s).events
        = (blocking_reap e s).2 ++
          [event.make_kid (blocking_reap e s).1.ctx.num_kids e.pid] ∧
      (loop_body e s).exit = (if e.pid = 0 then some loop_exit.child else none)) :=
  ⟨main_loop_floor_ok es s, fun e hd hlt => loop_body_below_floor e s hd hlt⟩

/-- Witness for `floor_before_polling`: a floor of one kid and no kid alive. -/
theorem floor_before_polling_witness :
    floor_state.die_now = 0 ∧
    (blocking_reap (iter_at none 0 0 1 1 101) floor_state).1.ctx.num_kids
      < floor_state.ctx.min_kids ∧
    (loop_body (iter_at none 0 0 1 1 101) floor_state).events
      = (blocking_reap (iter_at none 0 0 1 1 101) floor_state).2 ++
        [event.make_kid (blocking_reap (iter_at none 0 0 1 1 101) floor_state).1.ctx.num_kids
          (iter_at none 0 0 1 1 101).pid] ∧
    (loop_body (iter_at none 0 0 1 1 101) floor_state).exit
      = (if (iter_at none 0 0 1 1 101).pid = 0 then some loop_exit.child else none) :=
  ⟨by decide, by decide,
    (floor_before_polling [] floor_state).2 (iter_at none 0 0 1 1 101) (by decide) (by decide)⟩

/-- C6 (as stated, refuted). With `-N 0` the loop starts with
`num_kids = 0 = max_kids` and `min_kids = 0 <= max_kids`; the blocking
`waitpid` fails (there is no child), the loop goes on to poll, the gate returns
1, and `make_kid` is reached with `num_kids = 0 = max_kids`, leaving
`num_kids = 1 > max_kids`.  With `-N 4294967295 -n 4294967295` both bounds
are -1 as `int`, and the initial `num_kids = 0` already exceeds `max_kids`. -/
theorem ceiling_exceeded :
    (main [opt.N 0] (env_of [iter_at none (-1) 0 1 1 101])).log
      = [event.setup, event.swizzle, event.reap_block (-1), event.reap_nohang 0,
         event.poll 0 1, event.make_kid 0 101] ∧
    (main [opt.N 0] (env_of [iter_at none (-1) 0 1 1 101])).final.map
      (fun s => (s.ctx.num_kids, s.ctx.max_kids, s.ctx.min_kids)) = some (1, 0, 0) ∧
    (main [opt.N 4294967295, opt.n 4294967295] (env_of [])).final.map
      (fun s => (s.ctx.num_kids, s.ctx.max_kids, s.ctx.min_kids)) = some (0, -1, -1) := by
  decide

/-- C6 (amended). In every run of `main_loop` started with `num_kids = 0`,
`0 <= max_kids` and `min_kids <= max_kids`, in which no blocking `waitpid`
fails, for every outcome of `fork`, of the non-blocking reap and of the gate:
`num_kids` is at most `max_kids` after every iteration, and both `make_kid`
and `wait_for_incoming` are only reached with `num_kids < max_kids`. -/
theorem ceiling (es : List iter_env) (s : loop_state)
    (h0 : s.ctx.num_kids = 0) (hmax : 0 ≤ s.ctx.max_kids)
    (_hmm : s.ctx.min_kids ≤ s.ctx.max_kids) (hreap : ∀ e ∈ es, e.reap ≠ -1) :
    (main_loop es s).state.ctx.num_kids ≤ s.ctx.max_kids ∧
    (∀ k pid, event.make_kid k pid ∈ (main_loop es s).events → k < s.ctx.max_kids) ∧
    (∀ k r, event.poll k r ∈ (main_loop es s).events → k < s.ctx.max_kids) := by
  obtain ⟨h1, h2⟩ := main_loop_ceiling es s (by omega) hreap
  exact ⟨h1, fun k pid h => h2 _ h k rfl, fun k r h => h2 _ h k rfl⟩

/-- Witness for `ceiling`: `max_kids = 2`, three iterations in which the
descriptor is ready. -/
theorem ceiling_witness :
    pool_state.ctx.num_kids = 0 ∧
    (∀ e ∈ [iter_at none 0 0 1 1 101, iter_at none 0 0 2 1 102, iter_at none 0 0 3 1 103],
      e.reap ≠ -1) ∧
    (main_loop [iter_at none 0 0 1 1 101, iter_at none 0 0 2 1 102, iter_at none 0 0 3 1 103]
      pool_state).state.ctx.num_kids ≤ pool_state.ctx.max_kids ∧
    (∀ k pid, event.make_kid k pid ∈
      (main_loop [iter_at none 0 0 1 1 101, iter_at none 0 0 2 1 102, iter_at none 0 0 3 1 103]
        pool_state).events → k < pool_state.ctx.max_kids) ∧
    (∀ k r, event.poll k r ∈
      (main_loop [iter_at none 0 0 1 1 101, iter_at none 0 0 2 1 102, iter_at none 0 0 3 1 103]
        pool_state).events → k < pool_state.ctx.max_kids) :=
  ⟨by decide, by decide,
    ceiling [iter_at none 0 0 1 1 101, iter_at none 0 0 2 1 102, iter_at none 0 0 3 1 103]
      pool_state (by decide) (by decide) (by decide) (by decide)⟩

/-- C8 (as stated, refuted). With `-N 1 -n 1` and one kid alive, the loop is in
the blocking reap when SIGTERM is handled and the kid is reaped; the same
iteration then finds `num_kids = 0 < min_kids` and calls `make_kid`, after the
signal; only the next iteration sees `die_now` and calls `killpg`. -/
theorem spawn_after_signal :
    (main [opt.N 1, opt.n 1]
      (env_of [iter_at none 0 0 1 1 101, iter_at (some SIGTERM) 101 0 2 1 102,
        iter_at none 0 0 3 1 103])).log
      = [event.setup, event.swizzle, event.make_kid 0 101, event.reap_block 101,
         event.signal SIGTERM, event.make_kid 0 102, event.killpg] := by
  decide

/-- C8 (amended). In every iteration of `main_loop` that enters the blocking
reap with `die_now` clear and in which SIGTERM or SIGHUP is handled during
that reap: `die_now` is 1 when the reap returns and stays 1; the rest of the
iteration calls `make_kid` at most once; and if the iteration ends with the
loop still running, the next iteration observes the flag at its start, calls
`killpg(0, SIGHUP)` and terminates the loop, with no `make_kid` call. -/
theorem shutdown_on_signal (e : iter_env) (s : loop_state)
    (hd : s.die_now = 0) (hfull : s.ctx.num_kids ≥ s.ctx.max_kids)
    (hsig : e.sig_reap = some SIGTERM ∨ e.sig_reap = some SIGHUP) :
    (blocking_reap e s).2 = event.reap_block e.reap :: signal_events e.sig_reap ∧
    (blocking_reap e s).1.die_now = 1 ∧
    (loop_body e s).state.die_now = 1 ∧
    (loop_body e s).events.countP event.is_make_kid ≤ 1 ∧
    ((loop_body e s).exit = none → ∀ (e2 : iter_env) (es : List iter_env),
      main_loop (e2 :: es) (loop_body e s).state
        = { state := (loop_body e s).state, events := [event.killpg],
            exit := some loop_exit.broke }) := by
  obtain ⟨b1, b2⟩ := blocking_reap_full e s hfull
  have hdie : (blocking_reap e s).1.die_now = 1 := by
    rw [b1]; exact deliver_term _ _ hsig
  obtain ⟨hc, hdn⟩ := loop_body_after_signal e s hdie
  exact ⟨b2, hdie, hdn hd, hc, fun _ e2 es => main_loop_dying e2 es _ (hdn hd)⟩

/-- Witness for `shutdown_on_signal`: a full pool, SIGTERM interrupts the
blocking `waitpid`, the readiness wait then times out. -/
theorem shutdown_on_signal_witness :
    full_state.die_now = 0 ∧ full_state.ctx.num_kids ≥ full_state.ctx.max_kids ∧
    (loop_body (iter_at (some SIGTERM) (-1) 0 5 0 101) full_state).exit = none ∧
    (loop_body (iter_at (some SIGTERM) (-1) 0 5 0 101) full_state).state.die_now = 1 ∧
    (loop_body (iter_at (some SIGTERM) (-1) 0 5 0 101) full_state).events.countP
      event.is_make_kid ≤ 1 ∧
    main_loop [iter_at none 0 0 6 1 102]
        (loop_body (iter_at (some SIGTERM) (-1) 0 5 0 101) full_state).state
      = { state := (loop_body (iter_at (some SIGTERM) (-1) 0 5 0 101) full_state).state,
          events := [event.killpg], exit := some loop_exit.broke } :=
  ⟨by decide, by decide, by decide,
    (shutdown_on_signal (iter_at (some SIGTERM) (-1) 0 5 0 101) full_state (by decide)
      (by decide) (by decide)).2.2.1,
    (shutdown_on_signal (iter_at (some SIGTERM) (-1) 0 5 0 101) full_state (by decide)
      (by decide) (by decide)).2.2.2.1,
    (shutdown_on_signal (iter_at (some SIGTERM) (-1) 0 5 0 101) full_state (by decide)
      (by decide) (by decide)).2.2.2.2 (by decide) (iter_at none 0 0 6 1 102) []⟩

end Prefork
